import Mathlib

/-!
Verification of the raster_tools repository slice: the grid utility layer
(`raster_tools/utils.py`), and the Raster / band-concatenation / cost-distance
components that the test suite (`test/test_distance.py`,
`test/test_raster_funcs.py`) exercises.

The utility-layer functions are translated directly from
`src/raster_tools/utils.py`.  The Raster data type, `band_concat` and the
cost-distance engine are not present under `src/` (only their tests are), so
they are modelled from the specification (each such definition carries a
`Modelled from the spec:` doc comment).

Numeric conventions: raster cell values are rationals.  Accumulated cost
distances live in the quadratic extension determined by the cell diagonal:
a value `(x, y) : ℚ × ℚ` denotes the real number `x + y * Real.sqrt R` where
`R = dx^2 + dy^2` for cell dimensions `dx`, `dy`.  Orthogonal steps contribute
to the first component, diagonal steps to the second; comparisons are decided
exactly by sign analysis and squaring.
-/

/-! ### Generic list/grid helpers (total, structural versions of the array ops) -/

/-- List lookup with default (models `numpy`-style safe indexing of our grids). -/
def lgetD {α : Type} : List α → Nat → α → α
  | [], _, d => d
  | a :: _, 0, _ => a
  | _ :: t, n + 1, d => lgetD t n d

/-- Replace the element at an index, out-of-range indices leave the list unchanged. -/
def lset {α : Type} : List α → Nat → α → List α
  | [], _, _ => []
  | _ :: t, 0, v => v :: t
  | a :: t, n + 1, v => a :: lset t n v

/-- `rFrom s n = [s, s+1, ..., s+n-1]`. -/
def rFrom (s : Nat) : Nat → List Nat
  | 0 => []
  | n + 1 => s :: rFrom (s + 1) n

/-- A 2-D grid as a list of rows. -/
abbrev Grid (α : Type) : Type := List (List α)

/-- Safe 2-D lookup with default. -/
def ggetD {α : Type} (g : Grid α) (d : α) (i j : Nat) : α :=
  lgetD (lgetD g i []) j d

/-- 2-D update (no-op out of range). -/
def gset {α : Type} (g : Grid α) (i j : Nat) (v : α) : Grid α :=
  lset g i (lset (lgetD g i []) j v)

/-- Map a function over every grid cell. -/
def gmap {α β : Type} (f : α → β) (g : Grid α) : Grid β :=
  g.map (fun row => row.map f)

/-- Constant grid of a given shape. -/
def gfull {α : Type} (rows cols : Nat) (v : α) : Grid α :=
  List.replicate rows (List.replicate cols v)

/-- Build a grid from a cell function. -/
def gridInit {α : Type} (rows cols : Nat) (f : Nat → Nat → α) : Grid α :=
  (rFrom 0 rows).map (fun i => (rFrom 0 cols).map (fun j => f i j))

/-- All (row, column) index pairs of a grid, row-major. -/
def cellIdxList (rows cols : Nat) : List (Nat × Nat) :=
  ((rFrom 0 rows).map (fun i => (rFrom 0 cols).map (fun j => (i, j)))).flatten

/-! ### Error kinds (spec section 7) -/

/-- Error taxonomy of the spec: `InvalidInput` covers the Python
`ValueError`/`TypeError` structural-precondition failures, `MissingData` the
missing-null-value failures. -/
inductive RtError : Type
  | invalidInput (msg : String)
  | missingData (msg : String)
  deriving DecidableEq, Repr

/-! ### Utility layer, translated from `src/raster_tools/utils.py` -/

/-- `np.diff` on a 1-D sequence: consecutive differences `x[i+1] - x[i]`. -/
def np_diff (x : List ℚ) : List ℚ :=
  List.zipWith (fun a b => a - b) x.tail x

/-- `is_strictly_increasing` from `utils.py`: for a 1-D input the
`atleast_1d (squeeze x)` normalization is the identity, then the function
returns `len(diff) > 0 and (diff > 0).all()`. -/
def is_strictly_increasing (x : List ℚ) : Bool :=
  decide (0 < (np_diff x).length) && (np_diff x).all (fun d => decide (0 < d))

/-- `is_strictly_decreasing` from `utils.py`. -/
def is_strictly_decreasing (x : List ℚ) : Bool :=
  decide (0 < (np_diff x).length) && (np_diff x).all (fun d => decide (d < 0))

/-- Elementwise boolean OR of two mask grids (numpy `|`). -/
def orG (a b : Grid Bool) : Grid Bool :=
  List.zipWith (fun ra rb => List.zipWith (fun x y => x || y) ra rb) a b

/-- A store of mask arrays: models the Python heap, one boolean grid per
reference; references are indices into the store. -/
abbrev MaskStore : Type := List (Grid Bool)

/-- Read the grid a reference points to. -/
def readMask (st : MaskStore) (r : Nat) : Grid Bool := lgetD st r []

/-- Overwrite the grid a reference points to (in-place `|=`). -/
def writeMask (st : MaskStore) (r : Nat) (g : Grid Bool) : MaskStore := lset st r g

/-- Loop body of `merge_masks` from `utils.py`, in explicit state-passing form:
`mask = m.copy()` allocates a fresh reference holding a copy of the first
mask's contents; `mask |= m` mutates the accumulator reference in place. -/
def merge_masks_go (st : MaskStore) (acc : Option Nat) : List Nat → MaskStore × Option Nat
  | [] => (st, acc)
  | m :: rest =>
    match acc with
    | none => merge_masks_go (st ++ [readMask st m]) (some st.length) rest
    | some r => merge_masks_go (writeMask st r (orG (readMask st r) (readMask st m))) (some r) rest

/-- `merge_masks` from `utils.py` over the mask store: takes references to the
input masks, returns the updated store and the accumulator reference
(`none` for an empty input sequence, mirroring the Python `None`). -/
def merge_masks (st : MaskStore) (masks : List Nat) : MaskStore × Option Nat :=
  merge_masks_go st none masks

/-- A rank-tagged numeric array: shape plus row-major data.  Only the
shape bookkeeping matters for `single_band_mappable`. -/
structure Nd : Type where
  shape : List Nat
  data : List ℚ
  deriving DecidableEq, Repr

/-- `ndarray.ndim`. -/
def Nd.ndim (a : Nd) : Nat := a.shape.length

/-- `chunk[0]`: drop the leading axis, keep the first block of data. -/
def ndFirst (a : Nd) : Nd :=
  { shape := a.shape.tail, data := a.data.take (a.shape.tail.foldl (fun x y => x * y) 1) }

/-- `np.expand_dims(a, axis=0)`. -/
def expand_dims0 (a : Nd) : Nd := { shape := 1 :: a.shape, data := a.data }

/-- The wrapper produced by `single_band_mappable` in its default mode
(`no_input_chunk=False`), translated from `utils.py`: a 3-D chunk has its
leading band axis checked (size at most 1) and stripped, the wrapped function
is applied, a result of more than 2 dimensions is rejected, and otherwise a
singleton band axis is re-added; a chunk of any other rank passes straight
through.  The Python `TypeError`s are the spec's `InvalidInput`. -/
def single_band_mappable_wrap (f : Nd → Nd) (chunk : Nd) : Except RtError Nd :=
  if chunk.ndim = 3 then
    if 1 < lgetD chunk.shape 0 0 then
      .error (.invalidInput ("Expexted 0 or 1 bands. Got " ++ toString (lgetD chunk.shape 0 0) ++ "."))
    else
      let result := f (ndFirst chunk)
      if 2 < result.ndim then
        .error (.invalidInput ("Expected result to have 2 dimensions. Got " ++ toString result.ndim ++ "."))
      else .ok (expand_dims0 result)
  else .ok (f chunk)

/-- The whitespace set of Python's `str.strip()`. -/
def isPySpace (c : Char) : Bool :=
  c = ' ' || c = '\t' || c = '\n' || c = '\x0d' || c = '\x0b' || c = '\x0c'

/-- Python `str.strip()`: drop leading and trailing whitespace. -/
def pyStrip (s : List Char) : List Char :=
  ((s.dropWhile isPySpace).reverse.dropWhile isPySpace).reverse

/-- Python `str.split(".")`: split on every dot, keeping empty pieces
(so the empty string yields one empty piece). -/
def splitDot : List Char → List (List Char)
  | [] => [[]]
  | c :: rest =>
    match splitDot rest with
    | [] => [[]]
    | g :: gs => if c = '.' then [] :: g :: gs else (c :: g) :: gs

/-- Parse a run of decimal digits, `none` when empty or a non-digit appears. -/
def parseDigits : List Char → Option Nat
  | [] => none
  | [c] => if c.isDigit then some (c.toNat - 48) else none
  | c :: rest =>
    if c.isDigit then
      (parseDigits rest).map (fun n => (c.toNat - 48) * 10 ^ rest.length + n)
    else none

/-- Python `int(s)` on a version component: optional sign then decimal digits
(`none` models the raised `ValueError`). -/
def pyInt (s : List Char) : Option Int :=
  match s with
  | '-' :: rest => (parseDigits rest).map (fun n => -(n : Int))
  | '+' :: rest => (parseDigits rest).map (fun n => (n : Int))
  | _ => (parseDigits s).map (fun n => (n : Int))

/-- `version_to_tuple` from `utils.py`:
`tuple(map(int, version_str.strip().split(".")))`. -/
def version_to_tuple (s : List Char) : Option (List Int) :=
  (splitDot (pyStrip s)).mapM pyInt

/-! ### Exact arithmetic for accumulated costs

A pair `(x, y) : Qr` denotes `x + y * Real.sqrt R`, where `R` is the squared
cell diagonal `dx^2 + dy^2`. -/

/-- Exact accumulated-cost value: `(x, y)` denotes `x + y * Real.sqrt R`. -/
abbrev Qr : Type := ℚ × ℚ

/-- Addition of accumulated-cost values. -/
def qrAdd (p q : Qr) : Qr := (p.1 + q.1, p.2 + q.2)

/-- The effect of scaling both cell dimensions by `k > 0` on an
accumulated-cost value: the rational part scales, the coefficient of the
(scaled) radical is unchanged, since `Real.sqrt ((k * dx)^2 + (k * dy)^2) =
k * Real.sqrt (dx^2 + dy^2)`. -/
def qrS (k : ℚ) (p : Qr) : Qr := (k * p.1, p.2)

/-- Exact decision of `p.1 + p.2 * Real.sqrt R ≤ q.1 + q.2 * Real.sqrt R`
(for `R ≥ 0`), by sign analysis and squaring. -/
def qrLe (R : ℚ) (p q : Qr) : Bool :=
  let c : ℚ := p.2 - q.2
  let d : ℚ := q.1 - p.1
  if c ≤ 0 then
    (if 0 ≤ d then true else decide (d * d ≤ c * c * R))
  else
    (if d < 0 then false else decide (c * c * R ≤ d * d))

/-- Exact strict comparison of accumulated-cost values. -/
def qrLt (R : ℚ) (p q : Qr) : Bool := !(qrLe R q p)

/-! ### The Raster data model (spec section 3), modelled from the spec -/

/-- Modelled from the spec: the canonical numeric-kind singletons of the
Numeric Type Registry (spec section 4.1). -/
inductive DType : Type
  | u8 | u16 | u32 | u64
  | i8 | i16 | i32 | i64
  | f16 | f32 | f64 | f128
  | boolean
  deriving DecidableEq, Repr

/-- Integer kinds of the registry. -/
def DType.isInt : DType → Bool
  | .u8 | .u16 | .u32 | .u64 | .i8 | .i16 | .i32 | .i64 => true
  | _ => false

/-- Floating-point kinds of the registry. -/
def DType.isFloat : DType → Bool
  | .f16 | .f32 | .f64 | .f128 => true
  | _ => false

/-- Modelled from the spec: the six-coefficient affine geotransform
(spec section 6): `a` x-scale, `b` x-shear, `c` x-origin, `d` y-shear,
`e` y-scale, `f` y-origin. -/
structure AffineT : Type where
  a : ℚ
  b : ℚ
  c : ℚ
  d : ℚ
  e : ℚ
  f : ℚ
  deriving DecidableEq, Repr

/-- Modelled from the spec: the Raster data type (spec section 3) with cell
type `α`: a band-major value grid, a co-shaped boolean mask, a 1-based band
coordinate, an optional null value, a canonical dtype, an affine transform and
an attribute mapping (the metadata dictionary, holding entries such as the
no-data fill value under the key `_FillValue`). -/
structure OutRaster (α : Type) : Type where
  values : List (Grid α)
  mask : List (Grid Bool)
  band : List Int
  nullValue : Option α
  dtype : DType
  affine : AffineT
  attrs : List (String × ℚ)
  deriving DecidableEq, Repr

/-- The ordinary rational-valued Raster. -/
abbrev Raster : Type := OutRaster ℚ

/-- Row count of a raster's spatial shape. -/
def rasterRows {α : Type} (r : OutRaster α) : Nat := (lgetD r.values 0 []).length

/-- Column count of a raster's spatial shape. -/
def rasterCols {α : Type} (r : OutRaster α) : Nat := (lgetD (lgetD r.values 0 []) 0 []).length

/-- Look up a key in an attribute mapping. -/
def getKey (m : List (String × ℚ)) (k : String) : Option ℚ :=
  (m.find? (fun p => decide (p.1 = k))).map (fun p => p.2)

/-- Set a key in an attribute mapping: replace it where present, append it
otherwise. -/
def setKey (m : List (String × ℚ)) (k : String) (v : ℚ) : List (String × ℚ) :=
  if m.any (fun p => decide (p.1 = k)) then
    m.map (fun p => if p.1 = k then (k, v) else p)
  else m ++ [(k, v)]

/-! ### Cost-distance analysis engine (spec section 4.5), modelled from the spec -/

/-- Modelled from the spec: the tagged `sources` variant of
`cost_distance_analysis` (spec section 9's design note): either a
single-band integer Raster of labelled source cells, or an array of
(row, column) index pairs, modelled as a list of integer rows so the
(M, 2) shape check is expressible. -/
inductive CDSources : Type
  | fromRaster (src : Raster)
  | fromIndexArr (idxs : List (List Int))

/-- Dijkstra traversal state: tentative exact distances, finalized flags,
traceback direction codes and allocation labels, one entry per grid cell. -/
structure DState : Type where
  dist : Grid (Option Qr)
  done : Grid Bool
  back : Grid Int
  alloc : Grid ℚ
  deriving DecidableEq, Repr

/-- Offset of each traceback direction code, in the conventional geospatial
(ESRI-style) clockwise encoding fixed by the worked example:
1 = east, 2 = southeast, 3 = south, 4 = southwest, 5 = west, 6 = northwest,
7 = north, 8 = northeast (row grows southward). -/
def dirDelta : Nat → Int × Int
  | 1 => (0, 1)
  | 2 => (1, 1)
  | 3 => (1, 0)
  | 4 => (1, -1)
  | 5 => (0, -1)
  | 6 => (-1, -1)
  | 7 => (-1, 0)
  | 8 => (-1, 1)
  | _ => (0, 0)

/-- The code of the opposite direction (the traceback code written into a
relaxed neighbor, pointing back at the cell it was reached from). -/
def oppDir (d : Nat) : Nat := (d + 3) % 8 + 1

/-- Edge traversal cost as an exact value: the average of the two cell costs,
times the orthogonal cell dimension or placed on the diagonal radical. -/
def edgeW (dxw dyw avg : ℚ) (delta : Int × Int) : Qr :=
  if delta.1 ≠ 0 ∧ delta.2 ≠ 0 then (0, avg)
  else if delta.1 = 0 then (avg * dxw, 0)
  else (avg * dyw, 0)

/-- One scan step of the minimum search: fold a candidate cell into the
current best (first cell in row-major order wins ties). -/
def findMinStep (R : ℚ) (s : DState) (acc : Option (Nat × Nat × Qr)) (c : Nat × Nat) :
    Option (Nat × Nat × Qr) :=
  if ggetD s.done true c.1 c.2 then acc
  else
    match ggetD s.dist none c.1 c.2 with
    | none => acc
    | some d =>
      match acc with
      | none => some (c.1, c.2, d)
      | some (_, _, dmin) => if qrLt R d dmin then some (c.1, c.2, d) else acc

/-- Select the unfinalized reached cell of minimal tentative distance
(first such cell in row-major order on ties), together with that distance. -/
def findMin (R : ℚ) (rows cols : Nat) (s : DState) : Option (Nat × Nat × Qr) :=
  (cellIdxList rows cols).foldl (findMinStep R s) none

/-- Relax one neighbor of the cell `(i, j)` (current distance `d0`) in
direction `code`: skip off-grid and null-cost neighbors, and update distance,
traceback and allocation on strict improvement. -/
def relaxDir (R dxw dyw : ℚ) (g : Grid ℚ) (nv : ℚ) (rows cols : Nat)
    (i j : Nat) (d0 : Qr) (s : DState) (code : Nat) : DState :=
  let delta := dirDelta code
  let ni : Int := (i : Int) + delta.1
  let nj : Int := (j : Int) + delta.2
  if 0 ≤ ni ∧ ni < (rows : Int) ∧ 0 ≤ nj ∧ nj < (cols : Int) then
    let ui := ni.toNat
    let uj := nj.toNat
    if ggetD g nv ui uj = nv then s
    else
      let avg := (ggetD g nv i j + ggetD g nv ui uj) / 2
      let nd := qrAdd d0 (edgeW dxw dyw avg delta)
      let better :=
        match ggetD s.dist none ui uj with
        | none => true
        | some dn => qrLt R nd dn
      if better then
        { dist := gset s.dist ui uj (some nd)
          done := s.done
          back := gset s.back ui uj ((oppDir code : Nat) : Int)
          alloc := gset s.alloc ui uj (ggetD s.alloc 0 i j) }
      else s
  else s

/-- Relax all eight neighbors of a finalized cell, in direction-code order. -/
def expandFrom (R dxw dyw : ℚ) (g : Grid ℚ) (nv : ℚ) (rows cols : Nat)
    (i j : Nat) (d0 : Qr) (s : DState) : DState :=
  (rFrom 1 8).foldl (fun st code => relaxDir R dxw dyw g nv rows cols i j d0 st code) s

/-- Mark a cell finalized. -/
def markDone (s : DState) (i j : Nat) : DState :=
  { s with done := gset s.done i j true }

/-- The priority-driven least-cost accumulation (spec section 4.5, step 3):
repeatedly finalize the cheapest reached cell and relax its neighbors.
Each step finalizes one cell, so `rows * cols` steps of fuel suffice. -/
def dijkstra (R dxw dyw : ℚ) (g : Grid ℚ) (nv : ℚ) (rows cols : Nat) :
    Nat → DState → DState
  | 0, s => s
  | fuel + 1, s =>
    match findMin R rows cols s with
    | none => s
    | some (i, j, d0) =>
      dijkstra R dxw dyw g nv rows cols fuel
        (expandFrom R dxw dyw g nv rows cols i j d0 (markDone s i j))

/-- Seed the traversal state: every source cell gets distance 0, traceback
code 0 and its allocation label; everything else is unreached, with traceback
sentinel -1 and the allocation null sentinel. -/
def seedStep (s : DState) (src : Nat × Nat × ℚ) : DState :=
  { dist := gset s.dist src.1 src.2.1 (some (0, 0))
    done := s.done
    back := gset s.back src.1 src.2.1 0
    alloc := gset s.alloc src.1 src.2.1 src.2.2 }

def initState (rows cols : Nat) (sentinel : ℚ) (sources : List (Nat × Nat × ℚ)) : DState :=
  sources.foldl seedStep
    { dist := gfull rows cols none
      done := gfull rows cols false
      back := gfull rows cols (-1)
      alloc := gfull rows cols sentinel }

/-- Modelled from the spec: the dense output grids of the cost-distance
computation (spec section 4.5, steps 1-5) over a validated single-band cost
grid with the given cell dimensions: the cost-distance, traceback and
allocation grids and the shared output mask (null or unreached cells). -/
def engineGrids (g : Grid ℚ) (nv dxw dyw : ℚ) (sources : List (Nat × Nat × ℚ))
    (sentinel : ℚ) : Grid Qr × Grid Int × Grid ℚ × Grid Bool :=
  let rows := g.length
  let cols := (lgetD g 0 []).length
  let R := dxw * dxw + dyw * dyw
  let fin := dijkstra R dxw dyw g nv rows cols (rows * cols)
    (initState rows cols sentinel sources)
  let isNull : Nat → Nat → Bool := fun i j => decide (ggetD g nv i j = nv)
  let unreached : Nat → Nat → Bool := fun i j =>
    match ggetD fin.dist none i j with
    | none => true
    | some _ => false
  let outMask : Grid Bool := gridInit rows cols (fun i j => isNull i j || unreached i j)
  let cdVals : Grid Qr := gridInit rows cols (fun i j =>
    if isNull i j || unreached i j then (nv, 0) else (ggetD fin.dist none i j).getD (nv, 0))
  let tbVals : Grid Int := gridInit rows cols (fun i j =>
    if isNull i j || unreached i j then -1 else ggetD fin.back (-1) i j)
  let alVals : Grid ℚ := gridInit rows cols (fun i j =>
    if isNull i j || unreached i j then sentinel else ggetD fin.alloc sentinel i j)
  (cdVals, tbVals, alVals, outMask)

/-- Modelled from the spec: the core cost-distance computation over a
validated single-band cost surface (spec section 4.5, steps 1-5 and the
output/attribute contract).  Cell dimensions are the absolute values of the
affine x- and y-scale coefficients.  Returns the cost-distance, traceback and
allocation rasters. -/
def engineRun (cs : Raster) (nv : ℚ) (sources : List (Nat × Nat × ℚ)) (sentinel : ℚ) :
    OutRaster Qr × OutRaster Int × OutRaster ℚ :=
  let q := engineGrids (lgetD cs.values 0 []) nv |cs.affine.a| |cs.affine.e| sources sentinel
  ({ values := [q.1], mask := [q.2.2.2], band := [1], nullValue := some (nv, 0)
     dtype := .f64, affine := cs.affine, attrs := cs.attrs },
   { values := [q.2.1], mask := [q.2.2.2], band := [1], nullValue := some (-1)
     dtype := .i8, affine := cs.affine, attrs := setKey cs.attrs "_FillValue" (-1) },
   { values := [q.2.2.1], mask := [q.2.2.2], band := [1], nullValue := some sentinel
     dtype := .i64, affine := cs.affine, attrs := setKey cs.attrs "_FillValue" sentinel })

/-- Source cells of a sources Raster: the non-null cells in row-major order,
each labelled by its own cell value. -/
def srcCellsOfRaster (src : Raster) (snv : ℚ) (rows cols : Nat) : List (Nat × Nat × ℚ) :=
  (cellIdxList rows cols).filterMap (fun c =>
    let v := ggetD (lgetD src.values 0 []) snv c.1 c.2
    if v = snv then none else some (c.1, c.2, v))

/-- Source cells of a sources index array: each (row, column) pair labelled
by its 0-based position in the array. -/
def srcCellsOfIdxs (idxs : List (List Int)) : List (Nat × Nat × ℚ) :=
  (idxs.zip (rFrom 0 idxs.length)).map (fun p =>
    ((lgetD p.1 0 0).toNat, (lgetD p.1 1 0).toNat, (p.2 : ℚ)))

/-- Modelled from the spec: the input validation of `cost_distance_analysis`
(spec section 4.5, 'Inputs' and the failure semantics), performed eagerly
before any computation.  On success it returns the cost surface's null value,
the seeded source cells and the allocation null sentinel. -/
def cda_validate (cs : Raster) (sources : CDSources) :
    Except RtError (ℚ × List (Nat × Nat × ℚ) × ℚ) :=
  if cs.values.length = 1 then
    match cs.nullValue with
    | none => .error (.missingData ("Cost surface must have a null value"))
    | some nv =>
      match sources with
      | .fromRaster src =>
        if src.values.length = 1 then
          if src.dtype.isInt then
            if rasterRows src = rasterRows cs ∧ rasterCols src = rasterCols cs then
              match src.nullValue with
              | none => .error (.missingData ("Sources raster must have a null value"))
              | some snv =>
                .ok (nv, srcCellsOfRaster src snv (rasterRows cs) (rasterCols cs), snv)
            else .error (.invalidInput ("Cost surface and sources raster must have the same shape"))
          else .error (.invalidInput ("Sources raster must be an integer raster"))
        else .error (.invalidInput ("Sources raster must be a single band raster"))
      | .fromIndexArr idxs =>
        if idxs.all (fun r => decide (r.length = 2)) then
          if idxs.Nodup then .ok (nv, srcCellsOfIdxs idxs, -1)
          else .error (.invalidInput ("Sources array must not contain duplicate cells"))
        else .error (.invalidInput ("Sources array must have shape (M, 2)"))
  else .error (.invalidInput ("Cost surface must be a single band raster"))

/-- Modelled from the spec: `cost_distance_analysis` (spec section 4.5) —
validate the inputs eagerly, then run the least-cost accumulation engine. -/
def cost_distance_analysis (cs : Raster) (sources : CDSources) :
    Except RtError (OutRaster Qr × OutRaster Int × OutRaster ℚ) :=
  match cda_validate cs sources with
  | .error e => .error e
  | .ok v => .ok (engineRun cs v.1 v.2.1 v.2.2)

/-! ### Band concatenation (spec section 4.4), modelled from the spec -/

/-- The contiguous 1-based band coordinate `[1, 2, ..., n]`. -/
def oneToN (n : Nat) : List Int := (rFrom 0 n).map (fun k => Int.ofNat (k + 1))

/-- Modelled from the spec: `band_concat` (spec section 4.4) — stack the
bands of a non-empty sequence of same-spatial-shape Rasters in input order,
renumbering the band coordinate to `1..N`; metadata is taken from the first
input. -/
def band_concat (rs : List Raster) : Except RtError Raster :=
  match rs with
  | [] => .error (.invalidInput ("No rasters provided"))
  | r0 :: rest =>
    if rest.all (fun r => decide (rasterRows r = rasterRows r0) && decide (rasterCols r = rasterCols r0)) then
      .ok { values := ((r0 :: rest).map (fun r => r.values)).flatten
            mask := ((r0 :: rest).map (fun r => r.mask)).flatten
            band := oneToN (((r0 :: rest).map (fun r => r.values)).flatten).length
            nullValue := r0.nullValue
            dtype := r0.dtype
            affine := r0.affine
            attrs := r0.attrs }
    else .error (.invalidInput ("Must have same shape"))

/-! ### Output accessors and the worked example (ESRI docs, `test_distance.py`) -/

/-- A placeholder empty raster, used only to give total accessors for the
engine's `Except` results. -/
def emptyOutRaster (α : Type) : OutRaster α :=
  { values := [], mask := [], band := [], nullValue := none, dtype := .f64
    affine := { a := 1, b := 0, c := 0, d := 0, e := 1, f := 0 }, attrs := [] }

/-- The cost-distance output of an analysis call (empty raster on error). -/
def cdaCD (cs : Raster) (sources : CDSources) : OutRaster Qr :=
  match cost_distance_analysis cs sources with
  | .ok t => t.1
  | .error _ => emptyOutRaster Qr

/-- The traceback output of an analysis call (empty raster on error). -/
def cdaTB (cs : Raster) (sources : CDSources) : OutRaster Int :=
  match cost_distance_analysis cs sources with
  | .ok t => t.2.1
  | .error _ => emptyOutRaster Int

/-- The allocation output of an analysis call (empty raster on error). -/
def cdaAL (cs : Raster) (sources : CDSources) : OutRaster ℚ :=
  match cost_distance_analysis cs sources with
  | .ok t => t.2.2
  | .error _ => emptyOutRaster ℚ

/-- Value of the first band of a raster at a cell, with default. -/
def valAt {α : Type} (r : OutRaster α) (d : α) (i j : Nat) : α :=
  ggetD (lgetD r.values 0 []) d i j

/-- Mask of the first band of a raster at a cell (`false` out of range). -/
def maskAt {α : Type} (r : OutRaster α) (i j : Nat) : Bool :=
  ggetD (lgetD r.mask 0 []) false i j

/-- `|p - t| ≤ tol` for an exact value `p` against a rational target `t`. -/
def cellClose (R : ℚ) (p : Qr) (t tol : ℚ) : Bool :=
  qrLe R (t - tol, 0) p && qrLe R p (t + tol, 0)

/-- Same-shape comparison of an exact grid against a rational truth grid,
every cell within `tol`. -/
def gridClose (R : ℚ) (g : Grid Qr) (t : Grid ℚ) (tol : ℚ) : Bool :=
  decide (g.length = t.length) &&
    (g.zip t).all (fun rowp =>
      decide (rowp.1.length = rowp.2.length) &&
        (rowp.1.zip rowp.2).all (fun cp => cellClose R cp.1 cp.2 tol))

/-- The documented 6x6 cost surface (null value -1), from the ESRI worked
example reproduced in `test_distance.py`. -/
def exCost : Grid ℚ :=
  [[1, 3, 4, 4, 3, 2],
   [7, 3, 2, 6, 4, 6],
   [5, 8, 7, 5, 6, 6],
   [1, 4, 5, -1, 5, 1],
   [4, 7, 5, -1, 2, 6],
   [1, 2, 2, 1, 3, 4]]

/-- The documented 6x6 source grid (null value 0). -/
def exSrcGrid : Grid ℚ :=
  [[0, 1, 1, 0, 0, 0],
   [0, 0, 1, 0, 0, 0],
   [0, 0, 0, 0, 0, 0],
   [0, 0, 0, 0, 0, 0],
   [0, 0, 0, 0, 0, 0],
   [2, 0, 0, 0, 0, 0]]

/-- Unit-cell affine transform with the conventional negative y-scale. -/
def exAffine : AffineT := { a := 1, b := 0, c := 0, d := 0, e := -1, f := 0 }

/-- The cost surface as a Raster (`Raster(COST_SURF).set_null_value(-1)`). -/
def exCostRaster : Raster :=
  { values := [exCost], mask := [gmap (fun v => decide (v = -1)) exCost]
    band := [1], nullValue := some (-1), dtype := .i64, affine := exAffine
    attrs := [("_FillValue", -1)] }

/-- The sources grid as a Raster (`Raster(SOURCES).set_null_value(0)`). -/
def exSrcRaster : Raster :=
  { values := [exSrcGrid], mask := [gmap (fun v => decide (v = 0)) exSrcGrid]
    band := [1], nullValue := some 0, dtype := .i64, affine := exAffine
    attrs := [("_FillValue", 0)] }

/-- `np.argwhere(SOURCES != 0)`: the source cells as a (4, 2) index array. -/
def exSrcIdxs : List (List Int) := [[0, 1], [0, 2], [1, 2], [5, 0]]

/-- Published cost-distance truth grid at cell scale 1 (`CD_TRUTH_SCALE_1`). -/
def cdTruth1 : Grid ℚ :=
  [[2.0, 0.0, 0.0, 4.0, 7.5, 10.0],
   [6.0, 2.5, 0.0, 4.0, 9.0, 13.86396103],
   [8.0, 7.07106781, 4.5, 4.94974747, 10.44974747, 12.74264069],
   [5.0, 7.5, 10.5, -1.0, 10.62132034, 9.24264069],
   [2.5, 5.65685425, 6.44974747, -1.0, 7.12132034, 11.12132034],
   [0.0, 1.5, 3.5, 5.0, 7.0, 10.5]]

/-- Published cost-distance truth grid at cell scale 5 (`CD_TRUTH_SCALE_5`). -/
def cdTruth5 : Grid ℚ :=
  [[10.0, 0.0, 0.0, 20.0, 37.5, 50.0],
   [30.0, 12.5, 0.0, 20.0, 45.0, 69.31980515],
   [40.0, 35.35533906, 22.5, 24.74873734, 52.24873734, 63.71320344],
   [25.0, 37.5, 52.5, -1.0, 53.10660172, 46.21320344],
   [12.5, 28.28427125, 32.24873734, -1.0, 35.60660172, 55.60660172],
   [0.0, 7.5, 17.5, 25.0, 35.0, 52.5]]

/-- Published traceback truth grid (`TR_TRUTH_SCALE_1`). -/
def trTruth1 : Grid Int :=
  [[1, 0, 0, 5, 5, 5],
   [7, 1, 0, 5, 5, 6],
   [3, 8, 7, 6, 5, 3],
   [3, 5, 7, -1, 3, 4],
   [3, 4, 4, -1, 4, 5],
   [0, 5, 5, 5, 5, 5]]

/-- Published allocation truth grid for Raster-valued sources
(`AL_TRUTH_SCALE_1`; null cells carry the sources raster's null value 0). -/
def alTruth1 : Grid ℚ :=
  [[1, 1, 1, 1, 1, 1],
   [1, 1, 1, 1, 1, 1],
   [2, 1, 1, 1, 1, 2],
   [2, 2, 1, 0, 2, 2],
   [2, 2, 2, 0, 2, 2],
   [2, 2, 2, 2, 2, 2]]

/-- Published allocation truth grid for index-array sources
(`AL_TRUTH_IDXS_SCALE_1`; null sentinel -1). -/
def alTruthIdx1 : Grid ℚ :=
  [[0, 0, 1, 1, 1, 1],
   [0, 2, 2, 2, 2, 1],
   [3, 2, 2, 2, 2, 3],
   [3, 3, 2, -1, 3, 3],
   [3, 3, 3, -1, 3, 3],
   [3, 3, 3, 3, 3, 3]]

/-- Full comparison of one analysis run against the published truths:
cost-distance within `10^-6` of the published decimals (they are rounded
values of exact quadratic irrationals), traceback and allocation exact,
with the documented dtypes and null values. -/
def exRunChecks (src : CDSources) (alTruth : Grid ℚ) (alNull : ℚ) : Bool :=
  (cost_distance_analysis exCostRaster src).isOk &&
  gridClose 2 (lgetD (cdaCD exCostRaster src).values 0 []) cdTruth1 (1 / 1000000) &&
  decide ((cdaCD exCostRaster src).dtype = DType.f64) &&
  decide ((cdaCD exCostRaster src).nullValue = some ((-1 : ℚ), 0)) &&
  decide ((cdaTB exCostRaster src).values = [trTruth1]) &&
  decide ((cdaTB exCostRaster src).dtype = DType.i8) &&
  decide ((cdaTB exCostRaster src).nullValue = some (-1)) &&
  decide ((cdaAL exCostRaster src).values = [alTruth]) &&
  decide ((cdaAL exCostRaster src).dtype = DType.i64) &&
  decide ((cdaAL exCostRaster src).nullValue = some alNull)

/-! ### Derived definitions used by the claims -/

/-- Scale both cell dimensions of an affine transform uniformly by `k`. -/
def scaleAffine (k : ℚ) (af : AffineT) : AffineT :=
  { af with a := k * af.a, e := k * af.e }

/-- The cost surface with uniformly scaled cell dimensions. -/
def scaleRasterCells (k : ℚ) (cs : Raster) : Raster :=
  { cs with affine := scaleAffine k cs.affine }

/-- Negate the vertical (y-scale) coefficient of an affine transform. -/
def negEAffine (af : AffineT) : AffineT := { af with e := -af.e }

/-- The cost surface with the y-axis sign convention flipped. -/
def negERaster (cs : Raster) : Raster := { cs with affine := negEAffine cs.affine }

/-- All numeric content of a raster: everything except the affine transform
(the flipped-axis claim compares outputs numerically, not their transforms). -/
def stripAffine {α : Type} (r : OutRaster α) :
    List (Grid α) × List (Grid Bool) × List Int × Option α × DType × List (String × ℚ) :=
  (r.values, r.mask, r.band, r.nullValue, r.dtype, r.attrs)

/-- The squared cell diagonal of a raster's transform:
`|a|^2 + |e|^2`, the radicand `R` of its exact cost values. -/
def cellR (cs : Raster) : ℚ :=
  |cs.affine.a| * |cs.affine.a| + |cs.affine.e| * |cs.affine.e|

/-- The scaling action on the Dijkstra state when both cell dimensions are
scaled by `k`: every tentative distance scales, flags/codes/labels do not. -/
def scaleDS (k : ℚ) (s : DState) : DState :=
  { dist := gmap (Option.map (qrS k)) s.dist
    done := s.done
    back := s.back
    alloc := s.alloc }

/-- The scaling action on a minimum-search candidate (cell plus distance). -/
def qrS3 (k : ℚ) (t : Nat × Nat × Qr) : Nat × Nat × Qr := (t.1, t.2.1, qrS k t.2.2)

/-- The result raster of `band_concat` (empty raster on error). -/
def bcOut (rs : List Raster) : Raster :=
  match band_concat rs with
  | .ok r => r
  | .error _ => emptyOutRaster ℚ

/-! ### Small concrete fixtures used by the witnesses -/

/-- A tiny valid 1x1 cost surface (null value -1). -/
def csTiny : Raster :=
  { values := [[[1]]], mask := [[[false]]], band := [1], nullValue := some (-1)
    dtype := .i64, affine := exAffine, attrs := [("_FillValue", -1), ("scale", 2)] }

/-- A two-band raster (invalid as a cost surface or sources raster). -/
def rsTwoBand : Raster :=
  { values := [[[1]], [[1]]], mask := [[[false]], [[false]]], band := [1, 2]
    nullValue := some (-1), dtype := .i64, affine := exAffine
    attrs := [("_FillValue", -1)] }

/-- A single-band raster with no configured null value. -/
def rsNoNull : Raster :=
  { values := [[[1]]], mask := [[[false]]], band := [1], nullValue := none
    dtype := .i64, affine := exAffine, attrs := [] }

/-- A single-band float raster (invalid as a sources raster). -/
def rsFloat : Raster :=
  { values := [[[1]]], mask := [[[false]]], band := [1], nullValue := some (-1)
    dtype := .f64, affine := exAffine, attrs := [("_FillValue", -1)] }

/-- A single-band 1x1 raster carrying a nonstandard band coordinate. -/
def rsOddBand : Raster :=
  { values := [[[5]]], mask := [[[false]]], band := [9], nullValue := none
    dtype := .i64, affine := exAffine, attrs := [] }

/-- A single-band integer raster of the wrong spatial shape (2x1). -/
def rsWrongShape : Raster :=
  { values := [[[1], [1]]], mask := [[[false], [false]]], band := [1]
    nullValue := some (-1), dtype := .i64, affine := exAffine
    attrs := [("_FillValue", -1)] }

/-! ### Helper lemmas about the list/grid primitives -/

theorem lgetD_map {α β : Type} (f : α → β) (l : List α) (n : Nat) (d : α) :
    lgetD (l.map f) n (f d) = f (lgetD l n d) := by
  induction l generalizing n with
  | nil => rfl
  | cons a t ih =>
    cases n with
    | zero => rfl
    | succ m => simpa [lgetD] using ih m

theorem lset_map {α β : Type} (f : α → β) (l : List α) (n : Nat) (v : α) :
    lset (l.map f) n (f v) = (lset l n v).map f := by
  induction l generalizing n with
  | nil => rfl
  | cons a t ih =>
    cases n with
    | zero => rfl
    | succ m => simpa [lset] using ih m

theorem lset_length {α : Type} (l : List α) (n : Nat) (v : α) :
    (lset l n v).length = l.length := by
  induction l generalizing n with
  | nil => rfl
  | cons a t ih =>
    cases n with
    | zero => rfl
    | succ m => simpa [lset] using ih m

theorem lgetD_lset_ne {α : Type} (l : List α) (n m : Nat) (v : α) (d : α) (h : m ≠ n) :
    lgetD (lset l n v) m d = lgetD l m d := by
  induction l generalizing n m with
  | nil => rfl
  | cons a t ih =>
    cases n with
    | zero =>
      cases m with
      | zero => exact absurd rfl h
      | succ m2 => rfl
    | succ n2 =>
      cases m with
      | zero => rfl
      | succ m2 => exact ih n2 m2 (fun he => h (by omega))

theorem lgetD_append_lt {α : Type} (l l2 : List α) (n : Nat) (d : α) (h : n < l.length) :
    lgetD (l ++ l2) n d = lgetD l n d := by
  induction l generalizing n with
  | nil => simp at h
  | cons a t ih =>
    cases n with
    | zero => rfl
    | succ m =>
      simp only [List.length_cons] at h
      simpa [lgetD] using ih m (by omega)

theorem rFrom_length (s n : Nat) : (rFrom s n).length = n := by
  induction n generalizing s with
  | zero => rfl
  | succ m ih => simpa [rFrom] using ih (s + 1)

theorem lgetD_rFrom_map {α : Type} (g : Nat → α) (s n t : Nat) (d : α) :
    lgetD ((rFrom s n).map g) t d = if t < n then g (s + t) else d := by
  induction n generalizing s t with
  | zero => simp [rFrom, lgetD]
  | succ m ih =>
    cases t with
    | zero => simp [rFrom, lgetD]
    | succ t2 =>
      simp only [rFrom, List.map_cons, lgetD, ih (s + 1) t2]
      by_cases h : t2 < m
      · simp [h, Nat.succ_lt_succ h, Nat.add_comm, Nat.add_assoc, Nat.add_left_comm]
      · simp [h, fun hc => h (Nat.lt_of_succ_lt_succ hc)]

theorem ggetD_gridInit {α : Type} (rows cols : Nat) (f : Nat → Nat → α) (d : α) (i j : Nat) :
    ggetD (gridInit rows cols f) d i j = if i < rows ∧ j < cols then f i j else d := by
  unfold ggetD gridInit
  by_cases hi : i < rows
  · have h1 : lgetD ((rFrom 0 rows).map (fun i => (rFrom 0 cols).map (fun j => f i j))) i [] =
        (rFrom 0 cols).map (fun j => f i j) := by
      have := lgetD_rFrom_map (fun i => (rFrom 0 cols).map (fun j => f i j)) 0 rows i []
      simpa [hi] using this
    rw [h1, lgetD_rFrom_map]
    by_cases hj : j < cols
    · simp [hi, hj]
    · simp [hi, hj]
  · have h1 : lgetD ((rFrom 0 rows).map (fun i => (rFrom 0 cols).map (fun j => f i j))) i [] =
        ([] : List α) := by
      have := lgetD_rFrom_map (fun i => (rFrom 0 cols).map (fun j => f i j)) 0 rows i []
      simpa [hi] using this
    rw [h1]
    simp [hi, lgetD]

theorem ggetD_gmap {α β : Type} (f : α → β) (g : Grid α) (d : α) (i j : Nat) :
    ggetD (gmap f g) (f d) i j = f (ggetD g d i j) := by
  unfold ggetD gmap
  have h1 : lgetD (g.map (fun row => row.map f)) i [] = (lgetD g i []).map f := by
    have := lgetD_map (fun row => row.map f) g i []
    simpa using this
  rw [h1, lgetD_map]

theorem gset_gmap {α β : Type} (f : α → β) (g : Grid α) (i j : Nat) (v : α) :
    gset (gmap f g) i j (f v) = gmap f (gset g i j v) := by
  unfold gset gmap
  have h1 : lgetD (g.map (fun row => row.map f)) i [] = (lgetD g i []).map f := by
    have := lgetD_map (fun row => row.map f) g i []
    simpa using this
  rw [h1, lset_map, lset_map]

theorem gmap_gfull {α β : Type} (f : α → β) (rows cols : Nat) (v : α) :
    gmap f (gfull rows cols v) = gfull rows cols (f v) := by
  simp [gmap, gfull, List.map_replicate]

/-! ### Claim C7: is_strictly_increasing / is_strictly_decreasing -/

theorem np_diff_length (x : List ℚ) : (np_diff x).length = x.length - 1 := by
  simp [np_diff]

theorem lgetD_np_diff (x : List ℚ) (i : Nat) (h : i + 1 < x.length) :
    lgetD (np_diff x) i 0 = lgetD x (i + 1) 0 - lgetD x i 0 := by
  induction x generalizing i with
  | nil => simp at h
  | cons a t ih =>
    cases t with
    | nil => simp at h
    | cons b t2 =>
      cases i with
      | zero => rfl
      | succ i2 =>
        have h2 : i2 + 1 < (b :: t2).length := by
          simp only [List.length_cons] at h ⊢; omega
        simpa [np_diff, lgetD] using ih i2 h2

theorem all_true_iff_lgetD (p : ℚ → Bool) (l : List ℚ) :
    l.all p = true ↔ ∀ i, i < l.length → p (lgetD l i 0) = true := by
  induction l with
  | nil => simp
  | cons a t ih =>
    simp only [List.all_cons, Bool.and_eq_true, ih, List.length_cons]
    constructor
    · rintro ⟨h1, h2⟩ i hi
      cases i with
      | zero => exact h1
      | succ i2 => exact h2 i2 (by omega)
    · intro h
      exact ⟨h 0 (by omega), fun i hi => h (i + 1) (by omega)⟩

/-- Claim C7: `is_strictly_increasing` (resp. `is_strictly_decreasing`) on a
1-dimensional sequence returns true exactly when the sequence has at least two
elements and every consecutive difference is positive (resp. negative); every
sequence of length 0 or 1 yields false for both. -/
theorem spec_c7_strict_monotonicity (x : List ℚ) :
    (is_strictly_increasing x = true ↔
      (2 ≤ x.length ∧ ∀ i, i + 1 < x.length → lgetD x i 0 < lgetD x (i + 1) 0)) ∧
    (is_strictly_decreasing x = true ↔
      (2 ≤ x.length ∧ ∀ i, i + 1 < x.length → lgetD x (i + 1) 0 < lgetD x i 0)) ∧
    (x.length ≤ 1 → is_strictly_increasing x = false ∧ is_strictly_decreasing x = false) := by
  have hlen := np_diff_length x
  refine ⟨?_, ?_, ?_⟩
  · rw [is_strictly_increasing, Bool.and_eq_true, decide_eq_true_iff, all_true_iff_lgetD]
    constructor
    · rintro ⟨h1, h2⟩
      refine ⟨by omega, fun i hi => ?_⟩
      have h3 := h2 i (by omega)
      rw [lgetD_np_diff x i hi, decide_eq_true_iff] at h3
      linarith
    · rintro ⟨h1, h2⟩
      refine ⟨by omega, fun i hi => ?_⟩
      rw [lgetD_np_diff x i (by omega), decide_eq_true_iff]
      have := h2 i (by omega)
      linarith
  · rw [is_strictly_decreasing, Bool.and_eq_true, decide_eq_true_iff, all_true_iff_lgetD]
    constructor
    · rintro ⟨h1, h2⟩
      refine ⟨by omega, fun i hi => ?_⟩
      have h3 := h2 i (by omega)
      rw [lgetD_np_diff x i hi, decide_eq_true_iff] at h3
      linarith
    · rintro ⟨h1, h2⟩
      refine ⟨by omega, fun i hi => ?_⟩
      rw [lgetD_np_diff x i (by omega), decide_eq_true_iff]
      have := h2 i (by omega)
      linarith
  · intro hle
    have h0 : (np_diff x).length = 0 := by omega
    constructor
    · simp [is_strictly_increasing, h0]
    · simp [is_strictly_decreasing, h0]

/-- Witness for C7 at concrete inputs: `[1, 2, 3]` is strictly increasing,
and the empty and singleton sequences are rejected by both tests. -/
theorem spec_c7_strict_monotonicity_witness :
    is_strictly_increasing [(1 : ℚ), 2, 3] = true ∧
    is_strictly_increasing ([] : List ℚ) = false ∧
    is_strictly_decreasing [(7 : ℚ)] = false := by
  refine ⟨?_, ?_, ?_⟩
  · refine (spec_c7_strict_monotonicity [(1 : ℚ), 2, 3]).1.mpr ⟨by simp, fun i hi => ?_⟩
    simp only [List.length_cons, List.length_nil] at hi
    rcases i with _ | _ | i3
    · norm_num [lgetD]
    · norm_num [lgetD]
    · omega
  · exact ((spec_c7_strict_monotonicity ([] : List ℚ)).2.2 (by simp)).1
  · exact ((spec_c7_strict_monotonicity [(7 : ℚ)]).2.2 (by simp)).2

/-! ### Claim C9: merge_masks never mutates its inputs -/

theorem merge_masks_go_frame (masks : List Nat) :
    ∀ (st : MaskStore) (acc : Option Nat) (n : Nat),
      n ≤ st.length → (∀ r, acc = some r → n ≤ r) →
      ∀ p, p < n → readMask (merge_masks_go st acc masks).1 p = readMask st p := by
  induction masks with
  | nil => intro st acc n _ _ p _; rfl
  | cons m rest ih =>
    intro st acc n hn hacc p hp
    cases acc with
    | none =>
      have h1 : readMask (merge_masks_go (st ++ [readMask st m]) (some st.length) rest).1 p =
          readMask (st ++ [readMask st m]) p := by
        refine ih (st ++ [readMask st m]) (some st.length) n ?_ ?_ p hp
        · simp only [List.length_append, List.length_cons, List.length_nil]; omega
        · intro r hr
          cases hr
          omega
      rw [merge_masks_go, h1]
      unfold readMask
      exact lgetD_append_lt st [readMask st m] p [] (by omega)
    | some r =>
      have hr : n ≤ r := hacc r rfl
      have h1 : readMask (merge_masks_go
            (writeMask st r (orG (readMask st r) (readMask st m))) (some r) rest).1 p =
          readMask (writeMask st r (orG (readMask st r) (readMask st m))) p := by
        refine ih _ (some r) n ?_ ?_ p hp
        · unfold writeMask; rw [lset_length]; omega
        · intro r2 hr2; cases hr2; omega
      rw [merge_masks_go, h1]
      unfold readMask writeMask
      exact lgetD_lset_ne st r p _ [] (by omega)

/-- Claim C9: `merge_masks` never mutates its input masks — after the call,
every input reference's contents in the store equal its contents before the
call (the OR-accumulation happens in place only on the freshly allocated copy
of the first mask). -/
theorem spec_c9_merge_masks_frame (st : MaskStore) (masks : List Nat)
    (h : ∀ m ∈ masks, m < st.length) :
    ∀ m ∈ masks, readMask (merge_masks st masks).1 m = readMask st m := by
  intro m hm
  exact merge_masks_go_frame masks st none st.length (le_refl _)
    (fun r hr => by cases hr) m (h m hm)

/-- Witness for C9 at a concrete store of two masks, merged with the first
repeated: both input references keep their contents. -/
theorem spec_c9_merge_masks_frame_witness :
    readMask (merge_masks [[[true, false]], [[false, true]]] [0, 1, 0]).1 0 =
        readMask [[[true, false]], [[false, true]]] 0 ∧
      readMask (merge_masks [[[true, false]], [[false, true]]] [0, 1, 0]).1 1 =
        readMask [[[true, false]], [[false, true]]] 1 := by
  constructor
  · exact spec_c9_merge_masks_frame _ [0, 1, 0] (by decide) 0 (by decide)
  · exact spec_c9_merge_masks_frame _ [0, 1, 0] (by decide) 1 (by decide)

/-! ### Claim C10: version_to_tuple ignores surrounding whitespace -/

theorem dropWhile_append_all {p : Char → Bool} {w : List Char}
    (h : ∀ c ∈ w, p c = true) (t : List Char) :
    List.dropWhile p (w ++ t) = List.dropWhile p t := by
  induction w with
  | nil => rfl
  | cons c w2 ih =>
    have hc : p c = true := h c (by simp)
    simp only [List.cons_append, List.dropWhile_cons, hc, if_true]
    exact ih (fun c2 hc2 => h c2 (by simp [hc2]))

theorem dropWhile_all_space {p : Char → Bool} {w : List Char}
    (h : ∀ c ∈ w, p c = true) : List.dropWhile p w = [] := by
  have := dropWhile_append_all h ([] : List Char)
  simpa using this

theorem dropWhile_ne_nil_of_not_all {p : Char → Bool} {s : List Char}
    (h : ¬ ∀ c ∈ s, p c = true) : List.dropWhile p s ≠ [] := by
  induction s with
  | nil => exact absurd (by simp) h
  | cons c t ih =>
    by_cases hc : p c = true
    · simp only [List.dropWhile_cons, hc, if_true]
      refine ih (fun hall => h ?_)
      intro c2 hc2
      rcases List.mem_cons.mp hc2 with h1 | h2
      · cases h1; exact hc
      · exact hall c2 h2
    · simp [List.dropWhile_cons, hc]

theorem dropWhile_append_of_ne_nil {p : Char → Bool} {s : List Char}
    (h : List.dropWhile p s ≠ []) (t : List Char) :
    List.dropWhile p (s ++ t) = List.dropWhile p s ++ t := by
  induction s with
  | nil => exact absurd rfl h
  | cons c s2 ih =>
    by_cases hc : p c = true
    · simp only [List.dropWhile_cons, hc, if_true] at h
      simpa [List.dropWhile_cons, hc] using ih h
    · simp [List.dropWhile_cons, hc]

theorem pyStrip_pad {s w1 w2 : List Char}
    (h1 : ∀ c ∈ w1, isPySpace c = true) (h2 : ∀ c ∈ w2, isPySpace c = true) :
    pyStrip (w1 ++ s ++ w2) = pyStrip s := by
  unfold pyStrip
  rw [List.append_assoc, dropWhile_append_all h1]
  by_cases hs : ∀ c ∈ s, isPySpace c = true
  · have hall : ∀ c ∈ s ++ w2, isPySpace c = true := by
      intro c hc
      rcases List.mem_append.mp hc with h | h
      · exact hs c h
      · exact h2 c h
    rw [dropWhile_all_space hall, dropWhile_all_space hs]
  · rw [dropWhile_append_of_ne_nil (dropWhile_ne_nil_of_not_all hs) w2,
      List.reverse_append, dropWhile_append_all]
    intro c hc
    exact h2 c (List.mem_reverse.mp hc)

/-- Claim C10: `version_to_tuple` is invariant under surrounding whitespace —
the input is stripped before being split on dots, so padding the version
string with leading/trailing whitespace leaves the parsed tuple unchanged. -/
theorem spec_c10_version_strip (s w1 w2 : List Char)
    (h1 : ∀ c ∈ w1, isPySpace c = true) (h2 : ∀ c ∈ w2, isPySpace c = true) :
    version_to_tuple (w1 ++ s ++ w2) = version_to_tuple s := by
  unfold version_to_tuple
  rw [pyStrip_pad h1 h2]

/-- Witness for C10: padding `"1.2.3"` with a space and a newline parses the
same as the bare string. -/
theorem spec_c10_version_strip_witness :
    version_to_tuple ([' '] ++ ['1', '.', '2', '.', '3'] ++ ['\n']) =
      version_to_tuple ['1', '.', '2', '.', '3'] :=
  spec_c10_version_strip ['1', '.', '2', '.', '3'] [' '] ['\n']
    (by decide) (by decide)

/-! ### Claim C8: the single_band_mappable default-mode wrapper -/

/-- Counterexample to C8 as stated: on a 3-band chunk the wrapper does fail
with `InvalidInput`, but the message it carries is the source's literal
(misspelled) `"Expexted 0 or 1 bands. Got 3."`; the claimed message
`"Expected 0 or 1 bands"` does not occur in it at all. -/
theorem spec_c8_wrapper_counterexample :
    single_band_mappable_wrap (fun a => a) { shape := [3, 2, 2], data := [] } =
        .error (.invalidInput ("Expexted 0 or 1 bands. Got 3.")) ∧
      ¬ ("Expected 0 or 1 bands".toList <:+: ("Expexted 0 or 1 bands. Got 3.").toList) := by
  constructor
  · with_unfolding_all rfl
  · decide

/-- Claim C8 (amended): in default mode the wrapper strips a singleton leading
band dimension before calling the wrapped function and re-adds a singleton
band dimension to a 2-D result; it fails with `InvalidInput` carrying the
source's literal message `"Expexted 0 or 1 bands. Got N."` when the band
dimension has size `N > 1`, fails with `InvalidInput` when the wrapped
function's result has more than 2 dimensions after a band dimension was
stripped, and passes a 2-D chunk through with no dimension changes. -/
theorem spec_c8_wrapper_behavior :
    (∀ (f : Nd → Nd) (c : Nd), Nd.ndim c = 3 → lgetD c.shape 0 0 = 1 →
        (f (ndFirst c)).ndim = 2 →
        single_band_mappable_wrap f c = .ok (expand_dims0 (f (ndFirst c)))) ∧
    (∀ (f : Nd → Nd) (c : Nd), Nd.ndim c = 3 → 1 < lgetD c.shape 0 0 →
        single_band_mappable_wrap f c =
          .error (.invalidInput
            ("Expexted 0 or 1 bands. Got " ++ toString (lgetD c.shape 0 0) ++ "."))) ∧
    (∀ (f : Nd → Nd) (c : Nd), Nd.ndim c = 3 → lgetD c.shape 0 0 ≤ 1 →
        2 < (f (ndFirst c)).ndim →
        single_band_mappable_wrap f c =
          .error (.invalidInput
            ("Expected result to have 2 dimensions. Got " ++
              toString (f (ndFirst c)).ndim ++ "."))) ∧
    (∀ (f : Nd → Nd) (c : Nd), Nd.ndim c = 2 →
        single_band_mappable_wrap f c = .ok (f c)) := by
  refine ⟨?_, ?_, ?_, ?_⟩
  · intro f c h3 h1 hres
    have hnot : ¬ 1 < lgetD c.shape 0 0 := by omega
    have hnot2 : ¬ 2 < (f (ndFirst c)).ndim := by omega
    simp [single_band_mappable_wrap, h3, hnot, hnot2]
  · intro f c h3 h1
    simp [single_band_mappable_wrap, h3, h1]
  · intro f c h3 h1 hres
    have hnot : ¬ 1 < lgetD c.shape 0 0 := by omega
    simp [single_band_mappable_wrap, h3, hnot, hres]
  · intro f c h2
    have hne : Nd.ndim c ≠ 3 := by omega
    simp [single_band_mappable_wrap, hne]

/-- Witness for the amended C8 at concrete chunks: a (1, 2, 2) chunk is
stripped and re-expanded, a (3, 2, 2) chunk raises the band error, a 3-D
chunk whose wrapped result is 4-D raises the dimension error, and a 2-D chunk
passes through unchanged. -/
theorem spec_c8_wrapper_behavior_witness :
    single_band_mappable_wrap (fun a => a) { shape := [1, 2, 2], data := [1, 2, 3, 4] } =
        .ok (expand_dims0 (ndFirst { shape := [1, 2, 2], data := [1, 2, 3, 4] })) ∧
      single_band_mappable_wrap (fun a => a) { shape := [3, 1, 1], data := [] } =
        .error (.invalidInput ("Expexted 0 or 1 bands. Got " ++
          toString (lgetD ([3, 1, 1] : List Nat) 0 0) ++ ".")) ∧
      single_band_mappable_wrap (fun _ => { shape := [1, 1, 1, 1], data := [] })
          { shape := [1, 2, 2], data := [] } =
        .error (.invalidInput ("Expected result to have 2 dimensions. Got " ++
          toString (Nd.ndim { shape := [1, 1, 1, 1], data := ([] : List ℚ) }) ++ ".")) ∧
      single_band_mappable_wrap (fun a => a) { shape := [2, 2], data := [] } =
        .ok { shape := [2, 2], data := ([] : List ℚ) } := by
  refine ⟨?_, ?_, ?_, ?_⟩
  · exact spec_c8_wrapper_behavior.1 (fun a => a) _ (by decide) (by decide) (by decide)
  · exact spec_c8_wrapper_behavior.2.1 (fun a => a) _ (by decide) (by decide)
  · exact spec_c8_wrapper_behavior.2.2.1 _ _ (by decide) (by decide) (by decide)
  · exact spec_c8_wrapper_behavior.2.2.2 (fun a => a) _ (by decide)

/-! ### Claim C1: the documented worked example -/

/-- Claim C1: on the documented 6x6 cost surface (null -1) and source grid
(null 0), `cost_distance_analysis` reproduces the published truth grids for
both a Raster-valued sources input and the equivalent index-array input:
the traceback and allocation grids exactly (Raster case labelled by source
cell value with null sentinel 0, index case labelled by 0-based row position
with null sentinel -1), the cost-distance grid within `10^-6` of the published
decimals (which are rounded values of exact quadratic irrationals), with the
documented dtypes float64 / int8 / int64 and null values -1 / -1 /
sources-null. -/
theorem spec_c1_worked_example :
    (exRunChecks (.fromRaster exSrcRaster) alTruth1 0 &&
      exRunChecks (.fromIndexArr exSrcIdxs) alTruthIdx1 (-1)) = true := by
  with_unfolding_all rfl

/-! ### Claim C2: eager input validation of cost_distance_analysis -/

theorem isFloat_not_isInt (d : DType) (h : d.isFloat = true) : d.isInt = false := by
  cases d <;> simp_all [DType.isFloat, DType.isInt]

/-- Claim C2: `cost_distance_analysis` fails with `InvalidInput` on a
multi-band cost surface, a multi-band sources raster, a numeric non-integer
sources raster, a sources/cost shape mismatch, a sources index array whose
shape is not (M, 2), or duplicate index rows, and with `MissingData` on a
cost surface with no configured null value.  Each failure is an `error`
result of the eager validation pass, so no computation output is produced. -/
theorem spec_c2_validation_errors :
    (∀ (cs : Raster) (src : CDSources), 1 < cs.values.length →
        cost_distance_analysis cs src =
          .error (.invalidInput ("Cost surface must be a single band raster"))) ∧
    (∀ (cs : Raster) (src : CDSources), cs.values.length = 1 → cs.nullValue = none →
        cost_distance_analysis cs src =
          .error (.missingData ("Cost surface must have a null value"))) ∧
    (∀ (cs : Raster) (srcr : Raster) (nv : ℚ), cs.values.length = 1 →
        cs.nullValue = some nv → 1 < srcr.values.length →
        cost_distance_analysis cs (.fromRaster srcr) =
          .error (.invalidInput ("Sources raster must be a single band raster"))) ∧
    (∀ (cs : Raster) (srcr : Raster) (nv : ℚ), cs.values.length = 1 →
        cs.nullValue = some nv → srcr.values.length = 1 → srcr.dtype.isFloat = true →
        cost_distance_analysis cs (.fromRaster srcr) =
          .error (.invalidInput ("Sources raster must be an integer raster"))) ∧
    (∀ (cs : Raster) (srcr : Raster) (nv : ℚ), cs.values.length = 1 →
        cs.nullValue = some nv → srcr.values.length = 1 → srcr.dtype.isInt = true →
        ¬ (rasterRows srcr = rasterRows cs ∧ rasterCols srcr = rasterCols cs) →
        cost_distance_analysis cs (.fromRaster srcr) =
          .error (.invalidInput ("Cost surface and sources raster must have the same shape"))) ∧
    (∀ (cs : Raster) (idxs : List (List Int)) (nv : ℚ), cs.values.length = 1 →
        cs.nullValue = some nv →
        idxs.all (fun r => decide (r.length = 2)) = false →
        cost_distance_analysis cs (.fromIndexArr idxs) =
          .error (.invalidInput ("Sources array must have shape (M, 2)"))) ∧
    (∀ (cs : Raster) (idxs : List (List Int)) (nv : ℚ), cs.values.length = 1 →
        cs.nullValue = some nv →
        idxs.all (fun r => decide (r.length = 2)) = true → ¬ idxs.Nodup →
        cost_distance_analysis cs (.fromIndexArr idxs) =
          .error (.invalidInput ("Sources array must not contain duplicate cells"))) := by
  refine ⟨?_, ?_, ?_, ?_, ?_, ?_, ?_⟩
  · intro cs src h
    have hne : cs.values.length ≠ 1 := by omega
    simp [cost_distance_analysis, cda_validate, hne]
  · intro cs src h1 h2
    simp [cost_distance_analysis, cda_validate, h1, h2]
  · intro cs srcr nv h1 h2 h3
    have hne : srcr.values.length ≠ 1 := by omega
    simp [cost_distance_analysis, cda_validate, h1, h2, hne]
  · intro cs srcr nv h1 h2 h3 h4
    simp [cost_distance_analysis, cda_validate, h1, h2, h3, isFloat_not_isInt _ h4]
  · intro cs srcr nv h1 h2 h3 h4 h5
    simp [cost_distance_analysis, cda_validate, h1, h2, h3, h4, h5]
  · intro cs idxs nv h1 h2 h3
    simp [cost_distance_analysis, cda_validate, h1, h2, h3]
  · intro cs idxs nv h1 h2 h3 h4
    simp [cost_distance_analysis, cda_validate, h1, h2, h3, h4]

/-- Witness for C2: each validation failure at a concrete input. -/
theorem spec_c2_validation_errors_witness :
    cost_distance_analysis rsTwoBand (.fromIndexArr [[0, 0]]) =
        .error (.invalidInput ("Cost surface must be a single band raster")) ∧
      cost_distance_analysis rsNoNull (.fromIndexArr [[0, 0]]) =
        .error (.missingData ("Cost surface must have a null value")) ∧
      cost_distance_analysis csTiny (.fromRaster rsTwoBand) =
        .error (.invalidInput ("Sources raster must be a single band raster")) ∧
      cost_distance_analysis csTiny (.fromRaster rsFloat) =
        .error (.invalidInput ("Sources raster must be an integer raster")) ∧
      cost_distance_analysis csTiny (.fromRaster rsWrongShape) =
        .error (.invalidInput ("Cost surface and sources raster must have the same shape")) ∧
      cost_distance_analysis csTiny (.fromIndexArr [[0]]) =
        .error (.invalidInput ("Sources array must have shape (M, 2)")) ∧
      cost_distance_analysis csTiny (.fromIndexArr [[0, 0], [0, 0]]) =
        .error (.invalidInput ("Sources array must not contain duplicate cells")) := by
  refine ⟨?_, ?_, ?_, ?_, ?_, ?_, ?_⟩
  · exact spec_c2_validation_errors.1 rsTwoBand _ (by decide)
  · exact spec_c2_validation_errors.2.1 rsNoNull _ (by decide) rfl
  · exact spec_c2_validation_errors.2.2.1 csTiny rsTwoBand (-1) (by decide) rfl (by decide)
  · exact spec_c2_validation_errors.2.2.2.1 csTiny rsFloat (-1) (by decide) rfl (by decide) rfl
  · exact spec_c2_validation_errors.2.2.2.2.1 csTiny rsWrongShape (-1) (by decide) rfl
      (by decide) rfl (by decide)
  · exact spec_c2_validation_errors.2.2.2.2.2.1 csTiny [[0]] (-1) (by decide) rfl (by decide)
  · exact spec_c2_validation_errors.2.2.2.2.2.2 csTiny [[0, 0], [0, 0]] (-1) (by decide) rfl
      (by decide) (by decide)

/-! ### Claim C3: attribute-mapping propagation -/

theorem getKey_nil (k : String) : getKey [] k = none := rfl

theorem getKey_cons (p : String × ℚ) (t : List (String × ℚ)) (k : String) :
    getKey (p :: t) k = if p.1 = k then some p.2 else getKey t k := by
  by_cases h : p.1 = k
  · simp [getKey, List.find?, h]
  · simp [getKey, List.find?, h]

theorem getKey_append (m l : List (String × ℚ)) (k : String) :
    getKey (m ++ l) k = match getKey m k with
      | some v => some v
      | none => getKey l k := by
  induction m with
  | nil => simp [getKey_nil]
  | cons p t ih =>
    rw [List.cons_append, getKey_cons, getKey_cons]
    by_cases h : p.1 = k
    · simp [h]
    · simp [h, ih]

theorem getKey_none_of_any_false (m : List (String × ℚ)) (k : String)
    (h : m.any (fun p => decide (p.1 = k)) = false) : getKey m k = none := by
  induction m with
  | nil => rfl
  | cons p t ih =>
    simp only [List.any_cons, Bool.or_eq_false_iff, decide_eq_false_iff_not] at h
    rw [getKey_cons, if_neg h.1]
    exact ih h.2

theorem getKey_replace_same (m : List (String × ℚ)) (k : String) (v : ℚ)
    (h : m.any (fun p => decide (p.1 = k)) = true) :
    getKey (m.map (fun p => if p.1 = k then (k, v) else p)) k = some v := by
  induction m with
  | nil => simp at h
  | cons p t ih =>
    by_cases hp : p.1 = k
    · simp [getKey_cons, hp]
    · simp only [List.any_cons, Bool.or_eq_true, decide_eq_true_eq] at h
      rcases h with h1 | h2
      · exact absurd h1 hp
      · rw [List.map_cons, if_neg hp, getKey_cons, if_neg hp]
        exact ih h2

theorem getKey_replace_ne (m : List (String × ℚ)) (k k2 : String) (v : ℚ) (h : k2 ≠ k) :
    getKey (m.map (fun p => if p.1 = k then (k, v) else p)) k2 = getKey m k2 := by
  induction m with
  | nil => rfl
  | cons p t ih =>
    by_cases hp : p.1 = k
    · rw [List.map_cons, if_pos hp, getKey_cons, getKey_cons,
        if_neg (fun hc => h hc.symm), if_neg (fun hc => h (hp ▸ hc).symm)]
      exact ih
    · rw [List.map_cons, if_neg hp, getKey_cons, getKey_cons]
      by_cases hk2 : p.1 = k2
      · simp [hk2]
      · rw [if_neg hk2, if_neg hk2]
        exact ih

theorem getKey_setKey_same (m : List (String × ℚ)) (k : String) (v : ℚ) :
    getKey (setKey m k v) k = some v := by
  unfold setKey
  by_cases hany : m.any (fun p => decide (p.1 = k)) = true
  · rw [if_pos hany]
    exact getKey_replace_same m k v hany
  · rw [if_neg hany, getKey_append,
      getKey_none_of_any_false m k (Bool.not_eq_true _ ▸ eq_false_of_ne_true hany)]
    simp [getKey_cons]

theorem getKey_setKey_ne (m : List (String × ℚ)) (k k2 : String) (v : ℚ) (h : k2 ≠ k) :
    getKey (setKey m k v) k2 = getKey m k2 := by
  unfold setKey
  by_cases hany : m.any (fun p => decide (p.1 = k)) = true
  · rw [if_pos hany]
    exact getKey_replace_ne m k k2 v h
  · rw [if_neg hany, getKey_append]
    cases hg : getKey m k2 with
    | some v2 => rfl
    | none => rw [getKey_cons, if_neg (fun hc => h hc.symm), getKey_nil]

/-- Claim C3: on every valid call, the cost-distance output carries the cost
surface's attribute mapping unchanged (every key and value), while the
traceback and allocation outputs agree with it on every key except the
no-data fill-value entry, which instead holds each output's own null
sentinel (-1 for traceback, the allocation output's null value for
allocation). -/
theorem spec_c3_attrs_propagation (cs : Raster) (src : CDSources)
    (h : (cost_distance_analysis cs src).isOk = true) :
    (cdaCD cs src).attrs = cs.attrs ∧
    (∀ k, k ≠ "_FillValue" → getKey (cdaTB cs src).attrs k = getKey cs.attrs k) ∧
    getKey (cdaTB cs src).attrs "_FillValue" = some (-1) ∧
    (∀ k, k ≠ "_FillValue" → getKey (cdaAL cs src).attrs k = getKey cs.attrs k) ∧
    (∀ sv, (cdaAL cs src).nullValue = some sv →
        getKey (cdaAL cs src).attrs "_FillValue" = some sv) := by
  cases hv : cda_validate cs src with
  | error e =>
    rw [cost_distance_analysis] at h
    rw [hv] at h
    simp [Except.isOk, Except.toBool] at h
  | ok v =>
    have hcd : cdaCD cs src = (engineRun cs v.1 v.2.1 v.2.2).1 := by
      unfold cdaCD cost_distance_analysis
      rw [hv]
    have htb : cdaTB cs src = (engineRun cs v.1 v.2.1 v.2.2).2.1 := by
      unfold cdaTB cost_distance_analysis
      rw [hv]
    have hal : cdaAL cs src = (engineRun cs v.1 v.2.1 v.2.2).2.2 := by
      unfold cdaAL cost_distance_analysis
      rw [hv]
    refine ⟨?_, ?_, ?_, ?_, ?_⟩
    · rw [hcd]; rfl
    · intro k hk
      rw [htb]
      show getKey (setKey cs.attrs "_FillValue" (-1)) k = getKey cs.attrs k
      exact getKey_setKey_ne cs.attrs "_FillValue" k (-1) hk
    · rw [htb]
      show getKey (setKey cs.attrs "_FillValue" (-1)) "_FillValue" = some (-1)
      exact getKey_setKey_same cs.attrs "_FillValue" (-1)
    · intro k hk
      rw [hal]
      show getKey (setKey cs.attrs "_FillValue" v.2.2) k = getKey cs.attrs k
      exact getKey_setKey_ne cs.attrs "_FillValue" k v.2.2 hk
    · intro sv hsv
      rw [hal] at hsv ⊢
      have hne : (engineRun cs v.1 v.2.1 v.2.2).2.2.nullValue = some v.2.2 := rfl
      rw [hne] at hsv
      cases hsv
      show getKey (setKey cs.attrs "_FillValue" v.2.2) "_FillValue" = some v.2.2
      exact getKey_setKey_same cs.attrs "_FillValue" v.2.2

/-- Witness for C3 on a concrete valid 1x1 analysis call. -/
theorem spec_c3_attrs_propagation_witness :
    (cdaCD csTiny (.fromIndexArr [[0, 0]])).attrs = csTiny.attrs ∧
      getKey (cdaTB csTiny (.fromIndexArr [[0, 0]])).attrs "_FillValue" = some (-1) ∧
      getKey (cdaAL csTiny (.fromIndexArr [[0, 0]])).attrs "scale" =
        getKey csTiny.attrs "scale" := by
  have h : (cost_distance_analysis csTiny (.fromIndexArr [[0, 0]])).isOk = true := by
    with_unfolding_all rfl
  exact ⟨(spec_c3_attrs_propagation csTiny _ h).1,
    (spec_c3_attrs_propagation csTiny _ h).2.2.1,
    (spec_c3_attrs_propagation csTiny _ h).2.2.2.1 "scale" (by decide)⟩

/-! ### Claim C6: band_concat stacking and band renumbering -/

theorem oneToN_length (n : Nat) : (oneToN n).length = n := by
  rw [oneToN, List.length_map, rFrom_length]

theorem lgetD_oneToN (n t : Nat) (h : t < n) : lgetD (oneToN n) t 0 = (t : Int) + 1 := by
  unfold oneToN
  rw [lgetD_rFrom_map]
  simp only [h, if_true, Nat.zero_add]
  show ((t + 1 : Nat) : Int) = (t : Int) + 1
  push_cast
  ring

/-- Claim C6: for every non-empty sequence of same-spatial-shape rasters,
`band_concat` succeeds, its value grid is the plain ordered band-wise
stacking of the inputs' values, and its band coordinate is the contiguous
1-based strictly increasing sequence `1..N` over the total output band count,
regardless of the inputs' own band numbering. -/
theorem spec_c6_band_concat (r0 : Raster) (rest : List Raster)
    (hsh : rest.all (fun r => decide (rasterRows r = rasterRows r0) &&
        decide (rasterCols r = rasterCols r0)) = true) :
    (band_concat (r0 :: rest)).isOk = true ∧
    (bcOut (r0 :: rest)).values = ((r0 :: rest).map (fun r => r.values)).flatten ∧
    (bcOut (r0 :: rest)).band = oneToN (bcOut (r0 :: rest)).values.length ∧
    (bcOut (r0 :: rest)).band.length = (bcOut (r0 :: rest)).values.length ∧
    (∀ t, t < (bcOut (r0 :: rest)).values.length →
        lgetD (bcOut (r0 :: rest)).band t 0 = (t : Int) + 1) := by
  have hb : band_concat (r0 :: rest) =
      .ok { values := ((r0 :: rest).map (fun r => r.values)).flatten
            mask := ((r0 :: rest).map (fun r => r.mask)).flatten
            band := oneToN (((r0 :: rest).map (fun r => r.values)).flatten).length
            nullValue := r0.nullValue
            dtype := r0.dtype
            affine := r0.affine
            attrs := r0.attrs } := by
    have hstep : band_concat (r0 :: rest) =
        if (rest.all (fun r => decide (rasterRows r = rasterRows r0) &&
            decide (rasterCols r = rasterCols r0))) = true then
          .ok { values := ((r0 :: rest).map (fun r => r.values)).flatten
                mask := ((r0 :: rest).map (fun r => r.mask)).flatten
                band := oneToN (((r0 :: rest).map (fun r => r.values)).flatten).length
                nullValue := r0.nullValue
                dtype := r0.dtype
                affine := r0.affine
                attrs := r0.attrs }
        else .error (.invalidInput ("Must have same shape")) := rfl
    rw [hstep, if_pos hsh]
  have hout : bcOut (r0 :: rest) =
      { values := ((r0 :: rest).map (fun r => r.values)).flatten
        mask := ((r0 :: rest).map (fun r => r.mask)).flatten
        band := oneToN (((r0 :: rest).map (fun r => r.values)).flatten).length
        nullValue := r0.nullValue
        dtype := r0.dtype
        affine := r0.affine
        attrs := r0.attrs } := by
    unfold bcOut
    rw [hb]
  refine ⟨by rw [hb]; rfl, by rw [hout], by rw [hout], ?_, ?_⟩
  · rw [hout]
    exact oneToN_length _
  · intro t ht
    rw [hout] at ht ⊢
    exact lgetD_oneToN _ t ht

/-- Witness for C6: concatenating a 1-band, a 2-band and a 1-band raster
(with band coordinates [1], [1, 2] and [9]) stacks the four bands in order
and renumbers the band coordinate to [1, 2, 3, 4]. -/
theorem spec_c6_band_concat_witness :
    (bcOut [csTiny, rsTwoBand, rsOddBand]).values =
        [[[1]], [[1]], [[1]], [[(5 : ℚ)]]] ∧
      (bcOut [csTiny, rsTwoBand, rsOddBand]).band = [1, 2, 3, 4] := by
  have h := spec_c6_band_concat csTiny [rsTwoBand, rsOddBand] (by decide)
  constructor
  · rw [h.2.1]
    with_unfolding_all rfl
  · rw [h.2.2.1, h.2.1]
    with_unfolding_all rfl

/-! ### Claim C5: invariance under a flipped y-axis sign convention -/

theorem engineRun_negE (v : List (Grid ℚ)) (m : List (Grid Bool)) (b : List Int)
    (nvo : Option ℚ) (dt : DType) (af : AffineT) (ats : List (String × ℚ))
    (nq : ℚ) (sources : List (Nat × Nat × ℚ)) (sentinel : ℚ) :
    (stripAffine (engineRun ⟨v, m, b, nvo, dt, negEAffine af, ats⟩ nq sources sentinel).1,
      stripAffine (engineRun ⟨v, m, b, nvo, dt, negEAffine af, ats⟩ nq sources sentinel).2.1,
      stripAffine (engineRun ⟨v, m, b, nvo, dt, negEAffine af, ats⟩ nq sources sentinel).2.2) =
    (stripAffine (engineRun ⟨v, m, b, nvo, dt, af, ats⟩ nq sources sentinel).1,
      stripAffine (engineRun ⟨v, m, b, nvo, dt, af, ats⟩ nq sources sentinel).2.1,
      stripAffine (engineRun ⟨v, m, b, nvo, dt, af, ats⟩ nq sources sentinel).2.2) := by
  dsimp only [engineRun, stripAffine, negEAffine]
  simp only [abs_neg]

/-- Claim C5: negating the affine transform's vertical scale coefficient
leaves all three analysis outputs numerically identical (values, masks, band
coordinates, null values, dtypes and attributes; only the carried transform
itself differs): the engine depends only on the absolute values of the scale
coefficients. -/
theorem spec_c5_negative_resolution (cs : Raster) (src : CDSources) :
    (cost_distance_analysis (negERaster cs) src).map
        (fun t => (stripAffine t.1, stripAffine t.2.1, stripAffine t.2.2)) =
      (cost_distance_analysis cs src).map
        (fun t => (stripAffine t.1, stripAffine t.2.1, stripAffine t.2.2)) := by
  obtain ⟨v, m, b, nvo, dt, af, ats⟩ := cs
  have hval : cda_validate (negERaster ⟨v, m, b, nvo, dt, af, ats⟩) src =
      cda_validate ⟨v, m, b, nvo, dt, af, ats⟩ src := rfl
  unfold cost_distance_analysis
  rw [hval]
  cases hv : cda_validate (⟨v, m, b, nvo, dt, af, ats⟩ : Raster) src with
  | error e => rfl
  | ok val =>
    simp only [Except.map, negERaster, Except.ok.injEq, Prod.mk.injEq]
    have := engineRun_negE v m b nvo dt af ats val.1 val.2.1 val.2.2
    simp only [Prod.mk.injEq] at this
    exact ⟨this.1, this.2.1, this.2.2⟩

/-! ### Claim C4: uniform cell-size scaling scales cost distances linearly -/

theorem qrS_zero (k : ℚ) : qrS k (0, 0) = ((0 : ℚ), (0 : ℚ)) := by
  simp [qrS]

theorem qrAdd_scale (k : ℚ) (p q : Qr) :
    qrAdd (qrS k p) (qrS k q) = qrS k (qrAdd p q) := by
  simp only [qrAdd, qrS, Prod.mk.injEq]
  constructor <;> ring_nf

theorem qrLe_scale (k R : ℚ) (hk : 0 < k) (p q : Qr) :
    qrLe (k * k * R) (qrS k p) (qrS k q) = qrLe R p q := by
  unfold qrLe qrS
  have hd : k * q.1 - k * p.1 = k * (q.1 - p.1) := by ring
  simp only [hd]
  have hkk : (0 : ℚ) < k * k := mul_pos hk hk
  by_cases h1 : p.2 - q.2 ≤ 0
  · rw [if_pos h1, if_pos h1]
    by_cases h2 : 0 ≤ q.1 - p.1
    · rw [if_pos (mul_nonneg hk.le h2), if_pos h2]
    · have h2' : ¬ 0 ≤ k * (q.1 - p.1) := by
        intro hc
        exact h2 ((mul_nonneg_iff_of_pos_left hk).mp hc)
      rw [if_neg h2', if_neg h2, decide_eq_decide]
      have e1 : k * (q.1 - p.1) * (k * (q.1 - p.1)) =
          (k * k) * ((q.1 - p.1) * (q.1 - p.1)) := by ring
      have e2 : (p.2 - q.2) * (p.2 - q.2) * (k * k * R) =
          (k * k) * ((p.2 - q.2) * (p.2 - q.2) * R) := by ring
      rw [e1, e2]
      exact mul_le_mul_iff_of_pos_left hkk
  · rw [if_neg h1, if_neg h1]
    by_cases h2 : q.1 - p.1 < 0
    · have h2' : k * (q.1 - p.1) < 0 := by
        have := mul_pos hk (neg_pos.mpr h2)
        nlinarith
      rw [if_pos h2', if_pos h2]
    · have h2' : ¬ k * (q.1 - p.1) < 0 := by
        intro hc
        push_neg at h2
        nlinarith
      rw [if_neg h2', if_neg h2, decide_eq_decide]
      have e1 : k * (q.1 - p.1) * (k * (q.1 - p.1)) =
          (k * k) * ((q.1 - p.1) * (q.1 - p.1)) := by ring
      have e2 : (p.2 - q.2) * (p.2 - q.2) * (k * k * R) =
          (k * k) * ((p.2 - q.2) * (p.2 - q.2) * R) := by ring
      rw [e1, e2]
      exact mul_le_mul_iff_of_pos_left hkk

theorem qrLt_scale (k R : ℚ) (hk : 0 < k) (p q : Qr) :
    qrLt (k * k * R) (qrS k p) (qrS k q) = qrLt R p q := by
  unfold qrLt
  rw [qrLe_scale k R hk q p]

theorem edgeW_scale (k dxw dyw avg : ℚ) (delta : Int × Int) :
    edgeW (k * dxw) (k * dyw) avg delta = qrS k (edgeW dxw dyw avg delta) := by
  unfold edgeW qrS
  by_cases h1 : delta.1 ≠ 0 ∧ delta.2 ≠ 0
  · simp only [if_pos h1, Prod.mk.injEq]
    constructor <;> ring_nf
  · rw [if_neg h1, if_neg h1]
    by_cases h2 : delta.1 = 0
    · simp only [if_pos h2, Prod.mk.injEq]
      constructor <;> ring_nf
    · simp only [if_neg h2, Prod.mk.injEq]
      constructor <;> ring_nf

theorem ggetD_gmap_none {α β : Type} (f : α → β) (g : Grid (Option α)) (i j : Nat) :
    ggetD (gmap (Option.map f) g) none i j = Option.map f (ggetD g none i j) := by
  have := ggetD_gmap (Option.map f) g none i j
  simpa using this

theorem findMinStep_scale (k R : ℚ) (hk : 0 < k) (s : DState)
    (acc : Option (Nat × Nat × Qr)) (c : Nat × Nat) :
    findMinStep (k * k * R) (scaleDS k s) (acc.map (qrS3 k)) c =
      (findMinStep R s acc c).map (qrS3 k) := by
  unfold findMinStep scaleDS
  simp only []
  cases hdone : ggetD s.done true c.1 c.2 with
  | true => simp [hdone]
  | false =>
    simp only [hdone, Bool.false_eq_true, if_false]
    rw [ggetD_gmap_none (qrS k) s.dist c.1 c.2]
    cases hentry : ggetD s.dist none c.1 c.2 with
    | none => simp
    | some d =>
      simp only [Option.map_some']
      cases acc with
      | none => simp [qrS3]
      | some t =>
        obtain ⟨a, b2, dmin⟩ := t
        simp only [Option.map_some', qrS3]
        rw [qrLt_scale k R hk d dmin]
        by_cases hlt : qrLt R d dmin = true
        · simp [hlt, qrS3]
        · simp only [Bool.not_eq_true] at hlt
          simp [hlt, qrS3]

theorem findMin_fold_scale (k R : ℚ) (hk : 0 < k) (s : DState)
    (cells : List (Nat × Nat)) (acc : Option (Nat × Nat × Qr)) :
    cells.foldl (findMinStep (k * k * R) (scaleDS k s)) (acc.map (qrS3 k)) =
      (cells.foldl (findMinStep R s) acc).map (qrS3 k) := by
  induction cells generalizing acc with
  | nil => rfl
  | cons c rest ih =>
    rw [List.foldl_cons, List.foldl_cons, findMinStep_scale k R hk s acc c, ih]

theorem findMin_scale (k R : ℚ) (hk : 0 < k) (rows cols : Nat) (s : DState) :
    findMin (k * k * R) rows cols (scaleDS k s) =
      (findMin R rows cols s).map (qrS3 k) := by
  unfold findMin
  have := findMin_fold_scale k R hk s (cellIdxList rows cols) none
  simpa using this

theorem relaxDir_scale (k R dxw dyw : ℚ) (hk : 0 < k) (g : Grid ℚ) (nv : ℚ)
    (rows cols i j : Nat) (d0 : Qr) (s : DState) (code : Nat) :
    relaxDir (k * k * R) (k * dxw) (k * dyw) g nv rows cols i j (qrS k d0)
        (scaleDS k s) code =
      scaleDS k (relaxDir R dxw dyw g nv rows cols i j d0 s code) := by
  dsimp only [relaxDir, scaleDS]
  rw [edgeW_scale, qrAdd_scale, ggetD_gmap_none]
  by_cases hb : 0 ≤ (i : Int) + (dirDelta code).1 ∧ (i : Int) + (dirDelta code).1 < (rows : Int) ∧
      0 ≤ (j : Int) + (dirDelta code).2 ∧ (j : Int) + (dirDelta code).2 < (cols : Int)
  · rw [if_pos hb, if_pos hb]
    by_cases hnull : ggetD g nv ((i : Int) + (dirDelta code).1).toNat
        ((j : Int) + (dirDelta code).2).toNat = nv
    · rw [if_pos hnull, if_pos hnull]
    · rw [if_neg hnull, if_neg hnull]
      cases hdn : ggetD s.dist none ((i : Int) + (dirDelta code).1).toNat
          ((j : Int) + (dirDelta code).2).toNat with
      | none =>
        simp only [Option.map_none']
        rw [show (some (qrS k (qrAdd d0 (edgeW dxw dyw
            ((ggetD g nv i j + ggetD g nv ((i : Int) + (dirDelta code).1).toNat
              ((j : Int) + (dirDelta code).2).toNat) / 2) (dirDelta code))))) =
            Option.map (qrS k) (some (qrAdd d0 (edgeW dxw dyw
            ((ggetD g nv i j + ggetD g nv ((i : Int) + (dirDelta code).1).toNat
              ((j : Int) + (dirDelta code).2).toNat) / 2) (dirDelta code)))) from rfl,
          gset_gmap]
        simp only [if_true]
      | some dn =>
        simp only [Option.map_some']
        simp only [qrLt_scale k R hk]
        by_cases hlt : qrLt R (qrAdd d0 (edgeW dxw dyw
            ((ggetD g nv i j + ggetD g nv ((i : Int) + (dirDelta code).1).toNat
              ((j : Int) + (dirDelta code).2).toNat) / 2) (dirDelta code))) dn = true
        · rw [if_pos hlt, if_pos hlt]
          rw [show (some (qrS k (qrAdd d0 (edgeW dxw dyw
              ((ggetD g nv i j + ggetD g nv ((i : Int) + (dirDelta code).1).toNat
                ((j : Int) + (dirDelta code).2).toNat) / 2) (dirDelta code))))) =
              Option.map (qrS k) (some (qrAdd d0 (edgeW dxw dyw
              ((ggetD g nv i j + ggetD g nv ((i : Int) + (dirDelta code).1).toNat
                ((j : Int) + (dirDelta code).2).toNat) / 2) (dirDelta code)))) from rfl,
            gset_gmap]
        · rw [if_neg hlt, if_neg hlt]
  · rw [if_neg hb, if_neg hb]

theorem relax_fold_scale (k R dxw dyw : ℚ) (hk : 0 < k) (g : Grid ℚ) (nv : ℚ)
    (rows cols i j : Nat) (d0 : Qr) (codes : List Nat) :
    ∀ s : DState,
      codes.foldl (fun st code =>
          relaxDir (k * k * R) (k * dxw) (k * dyw) g nv rows cols i j (qrS k d0) st code)
        (scaleDS k s) =
      scaleDS k (codes.foldl (fun st code =>
          relaxDir R dxw dyw g nv rows cols i j d0 st code) s) := by
  induction codes with
  | nil => intro s; rfl
  | cons c rest ih =>
    intro s
    rw [List.foldl_cons, List.foldl_cons,
      relaxDir_scale k R dxw dyw hk g nv rows cols i j d0 s c, ih]

theorem expandFrom_scale (k R dxw dyw : ℚ) (hk : 0 < k) (g : Grid ℚ) (nv : ℚ)
    (rows cols i j : Nat) (d0 : Qr) (s : DState) :
    expandFrom (k * k * R) (k * dxw) (k * dyw) g nv rows cols i j (qrS k d0)
        (scaleDS k s) =
      scaleDS k (expandFrom R dxw dyw g nv rows cols i j d0 s) := by
  unfold expandFrom
  exact relax_fold_scale k R dxw dyw hk g nv rows cols i j d0 (rFrom 1 8) s

theorem markDone_scale (k : ℚ) (s : DState) (i j : Nat) :
    markDone (scaleDS k s) i j = scaleDS k (markDone s i j) := rfl

theorem dijkstra_scale (k R dxw dyw : ℚ) (hk : 0 < k) (g : Grid ℚ) (nv : ℚ)
    (rows cols : Nat) (fuel : Nat) :
    ∀ s : DState,
      dijkstra (k * k * R) (k * dxw) (k * dyw) g nv rows cols fuel (scaleDS k s) =
        scaleDS k (dijkstra R dxw dyw g nv rows cols fuel s) := by
  induction fuel with
  | zero => intro s; rfl
  | succ f ih =>
    intro s
    simp only [dijkstra]
    rw [findMin_scale k R hk rows cols s]
    cases hm : findMin R rows cols s with
    | none => simp only [Option.map_none']
    | some t =>
      obtain ⟨i, j, d0⟩ := t
      simp only [Option.map_some', qrS3]
      rw [markDone_scale k s i j,
        expandFrom_scale k R dxw dyw hk g nv rows cols i j d0 (markDone s i j), ih]

theorem seedStep_scale (k : ℚ) (s : DState) (src : Nat × Nat × ℚ) :
    seedStep (scaleDS k s) src = scaleDS k (seedStep s src) := by
  show DState.mk _ _ _ _ = DState.mk _ _ _ _
  simp only [seedStep, scaleDS, DState.mk.injEq]
  refine ⟨?_, by trivial, by trivial, by trivial⟩
  rw [← gset_gmap]
  rw [Option.map_some', qrS_zero]

theorem initState_scale (k : ℚ) (rows cols : Nat) (sentinel : ℚ)
    (sources : List (Nat × Nat × ℚ)) :
    scaleDS k (initState rows cols sentinel sources) =
      initState rows cols sentinel sources := by
  unfold initState
  have hfold : ∀ (srcs : List (Nat × Nat × ℚ)) (s : DState),
      scaleDS k (srcs.foldl seedStep s) = srcs.foldl seedStep (scaleDS k s) := by
    intro srcs
    induction srcs with
    | nil => intro s; rfl
    | cons a rest ih =>
      intro s
      rw [List.foldl_cons, List.foldl_cons, ih, seedStep_scale k s a]
  rw [hfold]
  have hinit : scaleDS k
      { dist := gfull rows cols none, done := gfull rows cols false
        back := gfull rows cols (-1), alloc := gfull rows cols sentinel } =
      { dist := gfull rows cols none, done := gfull rows cols false
        back := gfull rows cols (-1), alloc := gfull rows cols sentinel } := by
    show DState.mk _ _ _ _ = DState.mk _ _ _ _
    simp only [scaleDS, DState.mk.injEq]
    refine ⟨?_, by trivial, by trivial, by trivial⟩
    rw [gmap_gfull]
    rfl
  rw [hinit]

theorem engineGrids_scale (k dxw dyw : ℚ) (hk : 0 < k) (g : Grid ℚ) (nv : ℚ)
    (sources : List (Nat × Nat × ℚ)) (sentinel : ℚ) :
    (engineGrids g nv (k * dxw) (k * dyw) sources sentinel).2.2.2 =
        (engineGrids g nv dxw dyw sources sentinel).2.2.2 ∧
      ∀ i j : Nat,
        (ggetD (engineGrids g nv dxw dyw sources sentinel).2.2.2 false i j = true →
            ggetD (engineGrids g nv (k * dxw) (k * dyw) sources sentinel).1 (0, 0) i j =
              ggetD (engineGrids g nv dxw dyw sources sentinel).1 (0, 0) i j) ∧
        (ggetD (engineGrids g nv dxw dyw sources sentinel).2.2.2 false i j = false →
            ggetD (engineGrids g nv (k * dxw) (k * dyw) sources sentinel).1 (0, 0) i j =
              qrS k (ggetD (engineGrids g nv dxw dyw sources sentinel).1 (0, 0) i j)) := by
  have hRR : k * dxw * (k * dxw) + k * dyw * (k * dyw) =
      k * k * (dxw * dxw + dyw * dyw) := by ring
  dsimp only [engineGrids]
  rw [hRR]
  have hD : dijkstra (k * k * (dxw * dxw + dyw * dyw)) (k * dxw) (k * dyw) g nv
      g.length (lgetD g 0 []).length (g.length * (lgetD g 0 []).length)
      (initState g.length (lgetD g 0 []).length sentinel sources) =
      scaleDS k (dijkstra (dxw * dxw + dyw * dyw) dxw dyw g nv
        g.length (lgetD g 0 []).length (g.length * (lgetD g 0 []).length)
        (initState g.length (lgetD g 0 []).length sentinel sources)) := by
    conv_lhs => rw [← initState_scale k g.length (lgetD g 0 []).length sentinel sources]
    exact dijkstra_scale k (dxw * dxw + dyw * dyw) dxw dyw hk g nv
      g.length (lgetD g 0 []).length (g.length * (lgetD g 0 []).length) _
  rw [hD]
  generalize dijkstra (dxw * dxw + dyw * dyw) dxw dyw g nv
      g.length (lgetD g 0 []).length (g.length * (lgetD g 0 []).length)
      (initState g.length (lgetD g 0 []).length sentinel sources) = fin
  have hread : ∀ i j : Nat, ggetD (scaleDS k fin).dist none i j =
      Option.map (qrS k) (ggetD fin.dist none i j) := by
    intro i j
    exact ggetD_gmap_none (qrS k) fin.dist i j
  have hcond : ∀ i j : Nat,
      (decide (ggetD g nv i j = nv) ||
        match ggetD (scaleDS k fin).dist none i j with
        | none => true
        | some _ => false) =
      (decide (ggetD g nv i j = nv) ||
        match ggetD fin.dist none i j with
        | none => true
        | some _ => false) := by
    intro i j
    rw [hread i j]
    cases ggetD fin.dist none i j <;> rfl
  constructor
  · apply congrArg
    funext i j
    exact hcond i j
  · intro i j
    rw [ggetD_gridInit, ggetD_gridInit, ggetD_gridInit]
    by_cases hP : i < g.length ∧ j < (lgetD g 0 []).length
    · rw [if_pos hP, if_pos hP, if_pos hP]
      constructor
      · intro hmask
        rw [hcond i j, if_pos ?_, if_pos ?_]
        · exact hmask
        · exact hmask
      · intro hmask
        rw [hcond i j, if_neg ?_, if_neg ?_]
        rotate_left
        · rw [hmask]; exact Bool.false_ne_true
        · rw [hmask]; exact Bool.false_ne_true
        rw [hread i j]
        have hnun : (match ggetD fin.dist none i j with
            | none => true
            | some _ => false) = false := by
          rcases Bool.or_eq_false_iff.mp hmask with ⟨h1, h2⟩
          exact h2
        cases hdist : ggetD fin.dist none i j with
        | none => rw [hdist] at hnun; simp at hnun
        | some d => rfl
    · rw [if_neg hP, if_neg hP, if_neg hP]
      exact ⟨fun h => by simp at h, fun _ => (qrS_zero k).symm⟩

/-- Claim C4: scaling the affine transform's cell dimensions uniformly by a
constant factor `k > 0` leaves the cost-distance output's mask unchanged,
leaves every masked (null/unreached) cell's stored value unchanged, and
scales every finite (unmasked) entry by exactly `k`: in the exact encoding
the entry `(x, y)` (denoting `x + y * Real.sqrt R`) becomes `(k * x, y)` over
the scaled radicand, and the final conjunct states the denoted real value
itself scales by exactly `k`. -/
theorem spec_c4_scale (cs : Raster) (src : CDSources) (k : ℚ) (hk : 0 < k) (i j : Nat) :
    maskAt (cdaCD (scaleRasterCells k cs) src) i j = maskAt (cdaCD cs src) i j ∧
    (maskAt (cdaCD cs src) i j = true →
        valAt (cdaCD (scaleRasterCells k cs) src) (0, 0) i j =
          valAt (cdaCD cs src) (0, 0) i j) ∧
    (maskAt (cdaCD cs src) i j = false →
        valAt (cdaCD (scaleRasterCells k cs) src) (0, 0) i j =
          qrS k (valAt (cdaCD cs src) (0, 0) i j)) ∧
    (maskAt (cdaCD cs src) i j = false →
        ((valAt (cdaCD (scaleRasterCells k cs) src) (0, 0) i j).1 : ℝ) +
            ((valAt (cdaCD (scaleRasterCells k cs) src) (0, 0) i j).2 : ℝ) *
              Real.sqrt ((cellR (scaleRasterCells k cs) : ℚ) : ℝ) =
          (k : ℝ) * (((valAt (cdaCD cs src) (0, 0) i j).1 : ℝ) +
            ((valAt (cdaCD cs src) (0, 0) i j).2 : ℝ) *
              Real.sqrt ((cellR cs : ℚ) : ℝ))) := by
  have hk0 : (0 : ℝ) < (k : ℝ) := by exact_mod_cast hk
  have hcell : cellR (scaleRasterCells k cs) = k * k * cellR cs := by
    obtain ⟨v, m, b, nvo, dt, af, ats⟩ := cs
    simp only [cellR, scaleRasterCells, scaleAffine, abs_mul, abs_of_pos hk]
    ring
  have hsqrt : Real.sqrt ((cellR (scaleRasterCells k cs) : ℚ) : ℝ) =
      (k : ℝ) * Real.sqrt ((cellR cs : ℚ) : ℝ) := by
    rw [hcell]
    push_cast
    rw [show ((k : ℝ) * (k : ℝ) * (cellR cs : ℝ)) =
        ((k : ℝ) * (k : ℝ)) * (cellR cs : ℝ) from by ring,
      Real.sqrt_mul (by positivity) _, Real.sqrt_mul_self hk0.le]
  have hmain : maskAt (cdaCD (scaleRasterCells k cs) src) i j = maskAt (cdaCD cs src) i j ∧
      (maskAt (cdaCD cs src) i j = true →
          valAt (cdaCD (scaleRasterCells k cs) src) (0, 0) i j =
            valAt (cdaCD cs src) (0, 0) i j) ∧
      (maskAt (cdaCD cs src) i j = false →
          valAt (cdaCD (scaleRasterCells k cs) src) (0, 0) i j =
            qrS k (valAt (cdaCD cs src) (0, 0) i j)) := by
    obtain ⟨v, m, b, nvo, dt, af, ats⟩ := cs
    have hval : cda_validate
        (scaleRasterCells k ⟨v, m, b, nvo, dt, af, ats⟩) src =
        cda_validate ⟨v, m, b, nvo, dt, af, ats⟩ src := rfl
    cases hv : cda_validate (⟨v, m, b, nvo, dt, af, ats⟩ : Raster) src with
    | error e =>
      have h1 : cdaCD (scaleRasterCells k ⟨v, m, b, nvo, dt, af, ats⟩) src =
          emptyOutRaster Qr := by
        unfold cdaCD cost_distance_analysis
        rw [hval, hv]
      have h2 : cdaCD (⟨v, m, b, nvo, dt, af, ats⟩ : Raster) src = emptyOutRaster Qr := by
        unfold cdaCD cost_distance_analysis
        rw [hv]
      rw [h1, h2]
      exact ⟨rfl, fun _ => rfl, fun _ => (qrS_zero k).symm⟩
    | ok val =>
      have h1 : cdaCD (scaleRasterCells k ⟨v, m, b, nvo, dt, af, ats⟩) src =
          (engineRun (scaleRasterCells k ⟨v, m, b, nvo, dt, af, ats⟩)
            val.1 val.2.1 val.2.2).1 := by
        unfold cdaCD cost_distance_analysis
        rw [hval, hv]
      have h2 : cdaCD (⟨v, m, b, nvo, dt, af, ats⟩ : Raster) src =
          (engineRun (⟨v, m, b, nvo, dt, af, ats⟩ : Raster) val.1 val.2.1 val.2.2).1 := by
        unfold cdaCD cost_distance_analysis
        rw [hv]
      rw [h1, h2]
      have habs_a : |k * af.a| = k * |af.a| := by rw [abs_mul, abs_of_pos hk]
      have habs_e : |k * af.e| = k * |af.e| := by rw [abs_mul, abs_of_pos hk]
      have hmm : maskAt (engineRun (scaleRasterCells k ⟨v, m, b, nvo, dt, af, ats⟩)
          val.1 val.2.1 val.2.2).1 i j =
          ggetD (engineGrids (lgetD v 0 []) val.1 (k * |af.a|) (k * |af.e|)
            val.2.1 val.2.2).2.2.2 false i j := by
        show ggetD (engineGrids (lgetD v 0 []) val.1 |k * af.a| |k * af.e|
            val.2.1 val.2.2).2.2.2 false i j = _
        rw [habs_a, habs_e]
      have hmb : maskAt (engineRun (⟨v, m, b, nvo, dt, af, ats⟩ : Raster)
          val.1 val.2.1 val.2.2).1 i j =
          ggetD (engineGrids (lgetD v 0 []) val.1 |af.a| |af.e|
            val.2.1 val.2.2).2.2.2 false i j := rfl
      have hvm : valAt (engineRun (scaleRasterCells k ⟨v, m, b, nvo, dt, af, ats⟩)
          val.1 val.2.1 val.2.2).1 (0, 0) i j =
          ggetD (engineGrids (lgetD v 0 []) val.1 (k * |af.a|) (k * |af.e|)
            val.2.1 val.2.2).1 (0, 0) i j := by
        show ggetD (engineGrids (lgetD v 0 []) val.1 |k * af.a| |k * af.e|
            val.2.1 val.2.2).1 (0, 0) i j = _
        rw [habs_a, habs_e]
      have hvb : valAt (engineRun (⟨v, m, b, nvo, dt, af, ats⟩ : Raster)
          val.1 val.2.1 val.2.2).1 (0, 0) i j =
          ggetD (engineGrids (lgetD v 0 []) val.1 |af.a| |af.e|
            val.2.1 val.2.2).1 (0, 0) i j := rfl
      have hg := engineGrids_scale k |af.a| |af.e| hk (lgetD v 0 []) val.1 val.2.1 val.2.2
      refine ⟨?_, ?_, ?_⟩
      · rw [hmm, hmb, hg.1]
      · intro hmask
        rw [hmb] at hmask
        rw [hvm, hvb]
        exact (hg.2 i j).1 hmask
      · intro hmask
        rw [hmb] at hmask
        rw [hvm, hvb]
        exact (hg.2 i j).2 hmask
  refine ⟨hmain.1, hmain.2.1, hmain.2.2, ?_⟩
  intro hmask
  rw [hmain.2.2 hmask, hsqrt]
  simp only [qrS]
  push_cast
  ring

/-- Witness for C4: at the worked example with k = 5, cell (0, 0) is
unmasked and its scaled-run value is exactly the k-scaled base-run value;
moreover the whole scaled cost-distance grid matches the published
`CD_TRUTH_SCALE_5` truth grid within `10^-6`. -/
theorem spec_c4_scale_witness :
    maskAt (cdaCD exCostRaster (.fromRaster exSrcRaster)) 0 0 = false ∧
      valAt (cdaCD (scaleRasterCells 5 exCostRaster) (.fromRaster exSrcRaster)) (0, 0) 0 0 =
        qrS 5 (valAt (cdaCD exCostRaster (.fromRaster exSrcRaster)) (0, 0) 0 0) ∧
      gridClose 50
        (lgetD (cdaCD (scaleRasterCells 5 exCostRaster) (.fromRaster exSrcRaster)).values 0 [])
        cdTruth5 (1 / 1000000) = true := by
  have hmask : maskAt (cdaCD exCostRaster (.fromRaster exSrcRaster)) 0 0 = false := by
    with_unfolding_all rfl
  refine ⟨hmask,
    (spec_c4_scale exCostRaster (.fromRaster exSrcRaster) 5 (by norm_num) 0 0).2.2.1 hmask, ?_⟩
  with_unfolding_all rfl
